import Mathlib

/-!
Verification development for the `agrifood-cost-margin-senegal` repository.

The repository is a collection of Python EDA scripts and Streamlit dashboards.
This file gives a shallow embedding of the data model and of the operations the
claims concern, translated from the Python sources:

* `dashboard/Sen_agricost.py` and `dashboard/Agrifood Cost and Margin
  Estimation v2.py`: raster classification into colour bands
  (`generate_raster_images`), data loading and cleaning
  (`load_commodity_data`), and the `main` pipeline;
* `dashboard/app.py`: `load_data` and `main`;
* `scripts/agrifood_pipeline.py`: `extract_price_data` (regex over spaCy
  sentences) and `generate_margin_data`.

Conventions of the embedding:

* numpy float pixel values are modelled by `RVal`: a finite rational, `inf`
  (`np.inf`), or `nan` (NaN); a pixel of a `np.ma` masked array is an `MPix`,
  the mask flag paired with the underlying raw value, because ndarray boolean
  indexing ignores the mask: a comparison on a masked array keeps the raw
  comparison of the underlying data as its data, and `&` of two masked
  boolean arrays reverts masked positions to the left operand's data, so at
  a masked position only the raw `>=` lower-bound test remains;
* pandas cells are `Option`-typed, `none` standing for NaN / missing;
* DataFrames are lists of typed rows; column-schema-level reasoning uses
  lists of column names;
* fallible actions (file reads) appear as `Except` inputs, and functions that
  catch every exception and may return `None` return `Option`.
-/

/-- A raster pixel value: a finite float (modelled as a rational), `np.inf`,
or NaN.  This is the raw value stored in the array; whether a cell is
nodata-masked is tracked separately by `MPix`, since numpy's boolean
indexing ignores the mask and sees these raw values. -/
inductive RVal where
  | fin : Rat → RVal
  | inf : RVal
  | nan : RVal
deriving DecidableEq, Repr

/-- The numpy `>=` test on pixel values (IEEE semantics: NaN compares false,
`inf >= x` holds for every non-NaN `x`). -/
def rge : RVal → RVal → Bool
  | .nan, _ => false
  | _, .nan => false
  | .inf, _ => true
  | .fin _, .inf => false
  | .fin a, .fin b => decide (b ≤ a)

/-- The numpy `<` test on pixel values (IEEE semantics: NaN compares false,
`x < inf` holds for every finite `x`, `inf < inf` is false). -/
def rlt : RVal → RVal → Bool
  | .nan, _ => false
  | _, .nan => false
  | .inf, _ => false
  | .fin _, .inf => true
  | .fin a, .fin b => decide (a < b)

/-- The numpy `<=` test on pixel values. -/
def rle : RVal → RVal → Bool
  | .nan, _ => false
  | _, .nan => false
  | _, .inf => true
  | .inf, .fin _ => false
  | .fin a, .fin b => decide (a ≤ b)

/-- An RGB colour triple, as stored in the `uint8` output array. -/
abbrev RGB := Nat × Nat × Nat

/-- One classification band: pixels with `lo <= v < hi` receive `color`. -/
structure Band where
  lo : RVal
  hi : RVal
  color : RGB
deriving DecidableEq, Repr

/-- The mask test `(data >= breaks[i]) & (data < breaks[i+1])` of
`generate_raster_images`, for one pixel and one band. -/
def bandTest (v : RVal) (b : Band) : Bool :=
  rge v b.lo && rlt v b.hi

/-- The band list built by `for i in range(len(breaks) - 1)` from consecutive
pairs of breakpoints and the colour table. -/
def bandsOf : List RVal → List RGB → List Band
  | b1 :: b2 :: bs, c :: cs => { lo := b1, hi := b2, color := c } :: bandsOf (b2 :: bs) cs
  | _, _ => []

/-- The per-pixel effect of the classification loop: bands are applied in
order, each matching band overwriting the pixel's current colour. -/
def applyBands (v : RVal) : List Band → RGB → RGB
  | [], acc => acc
  | b :: rest, acc => applyBands v rest (if bandTest v b then b.color else acc)

/-- Per-pixel classification: the output array is zero-initialised
(`np.zeros(..., dtype=np.uint8)`, i.e. black) and the band loop is applied. -/
def classifyPixel (breaks : List RVal) (colors : List RGB) (v : RVal) : RGB :=
  applyBands v (bandsOf breaks colors) (0, 0, 0)

/-- Breakpoint lookup, total with `nan` as out-of-range default (never hit on
the concrete tables). -/
def breakAt (bs : List RVal) (i : Nat) : RVal := bs.getD i .nan

/-- Colour lookup, total with black as out-of-range default. -/
def colorAt (cs : List RGB) (i : Nat) : RGB := cs.getD i (0, 0, 0)

/-- The rational `0.001` in lowest terms (constructed directly so that kernel
evaluation of comparisons does not need `Nat.gcd`). -/
def qMilli : Rat := ⟨1, 1000, by decide, Nat.coprime_one_left 1000⟩

/-- The rational `0.01` in lowest terms. -/
def qCenti : Rat := ⟨1, 100, by decide, Nat.coprime_one_left 100⟩

/-- The rational `0.1` in lowest terms. -/
def qDeci : Rat := ⟨1, 10, by decide, Nat.coprime_one_left 10⟩

/-- The rational `0.5` in lowest terms. -/
def qHalf : Rat := ⟨1, 2, by decide, Nat.coprime_one_left 2⟩

/-- A raster, row-major. -/
abbrev Grid := List (List RVal)

/-- The `src.bounds` record of a raster. -/
structure RBounds where
  left : Rat
  bottom : Rat
  right : Rat
  top : Rat
deriving DecidableEq, Repr

namespace SenAgricost

/-- Travel-time breakpoints of `generate_raster_images` in
`dashboard/Sen_agricost.py`: `[0, 10, 30, 60, 120, 240, 1440, np.inf]`. -/
def travel_breaks : List RVal :=
  [.fin 0, .fin 10, .fin 30, .fin 60, .fin 120, .fin 240, .fin 1440, .inf]

/-- Travel-time colour table of `dashboard/Sen_agricost.py`. -/
def travel_colors : List RGB :=
  [(255, 255, 204), (255, 237, 160), (254, 178, 76), (253, 141, 60),
   (240, 59, 32), (189, 0, 38), (128, 0, 38)]

/-- Friction breakpoints of `dashboard/Sen_agricost.py`:
`[0, 0.001, 0.01, 0.1, 0.5, 1.0, 2.0, 5.0, np.inf]`. -/
def friction_breaks : List RVal :=
  [.fin 0, .fin qMilli, .fin qCenti, .fin qDeci, .fin qHalf,
   .fin 1, .fin 2, .fin 5, .inf]

/-- Friction colour table of `dashboard/Sen_agricost.py`. -/
def friction_colors : List RGB :=
  [(0, 104, 55), (49, 163, 84), (120, 198, 121), (194, 230, 153),
   (253, 174, 97), (244, 109, 67), (165, 0, 38), (128, 0, 38)]

/-- The pure content of `generate_raster_images` in `dashboard/Sen_agricost.py`:
an RGB array is produced for a raster exactly when both its data and its
bounds are present, and the overlay bounds come from the travel raster when
available, else from the friction raster. -/
def generate_raster_images (travel_data friction_data : Option Grid)
    (travel_bounds friction_bounds : Option RBounds) :
    Option (List (List RGB)) × Option (List (List RGB)) × Option (List (List Rat)) :=
  let travel_rgb :=
    match travel_data, travel_bounds with
    | some g, some _ => some (g.map (fun row => row.map (classifyPixel travel_breaks travel_colors)))
    | _, _ => none
  let friction_rgb :=
    match friction_data, friction_bounds with
    | some g, some _ => some (g.map (fun row => row.map (classifyPixel friction_breaks friction_colors)))
    | _, _ => none
  let image_bounds :=
    match travel_bounds, friction_bounds with
    | some b, _ => some [[b.bottom, b.left], [b.top, b.right]]
    | none, some b => some [[b.bottom, b.left], [b.top, b.right]]
    | none, none => none
  (travel_rgb, friction_rgb, image_bounds)

end SenAgricost

namespace AgrifoodV2

/-- Travel-time breakpoints of `generate_raster_images` in
`dashboard/Agrifood Cost and Margin Estimation v2.py`. -/
def travel_breaks : List RVal :=
  [.fin 0, .fin 10, .fin 30, .fin 60, .fin 120, .fin 240, .fin 1440, .inf]

/-- Travel-time colour table of `dashboard/Agrifood Cost and Margin
Estimation v2.py`. -/
def travel_colors : List RGB :=
  [(255, 255, 204), (255, 237, 160), (254, 178, 76), (253, 141, 60),
   (240, 59, 32), (189, 0, 38), (128, 0, 38)]

/-- Friction breakpoints of `dashboard/Agrifood Cost and Margin
Estimation v2.py`. -/
def friction_breaks : List RVal :=
  [.fin 0, .fin qMilli, .fin qCenti, .fin qDeci, .fin qHalf,
   .fin 1, .fin 2, .fin 5, .inf]

/-- Friction colour table of `dashboard/Agrifood Cost and Margin
Estimation v2.py`. -/
def friction_colors : List RGB :=
  [(0, 104, 55), (49, 163, 84), (120, 198, 121), (194, 230, 153),
   (253, 174, 97), (244, 109, 67), (165, 0, 38), (128, 0, 38)]

/-- The pure content of `generate_raster_images` in
`dashboard/Agrifood Cost and Margin Estimation v2.py` (the loop bodies are
wrapped in `try`/`except` around the PIL save, but the computed arrays and
bounds are produced under the same conditions as in `Sen_agricost.py`). -/
def generate_raster_images (travel_data friction_data : Option Grid)
    (travel_bounds friction_bounds : Option RBounds) :
    Option (List (List RGB)) × Option (List (List RGB)) × Option (List (List Rat)) :=
  let travel_rgb :=
    match travel_data, travel_bounds with
    | some g, some _ => some (g.map (fun row => row.map (classifyPixel travel_breaks travel_colors)))
    | _, _ => none
  let friction_rgb :=
    match friction_data, friction_bounds with
    | some g, some _ => some (g.map (fun row => row.map (classifyPixel friction_breaks friction_colors)))
    | _, _ => none
  let image_bounds :=
    match travel_bounds, friction_bounds with
    | some b, _ => some [[b.bottom, b.left], [b.top, b.right]]
    | none, some b => some [[b.bottom, b.left], [b.top, b.right]]
    | none, none => none
  (travel_rgb, friction_rgb, image_bounds)

end AgrifoodV2

/-- The source files of the repository, each flagged with whether it defines
the raster-to-RGB classification routine `generate_raster_images`. -/
def repoSourceFiles : List (String × Bool) :=
  [("dashboard/Agrifood Cost and Margin Estimation v2.py", true),
   ("dashboard/Sen_agricost.py", true),
   ("dashboard/app.py", false),
   ("folder.py", false),
   ("scripts/agrifood_pipeline.py", false),
   ("scripts/faostat_eda.py", false),
   ("scripts/fpma_eda.py", false),
   ("scripts/grip_eda.py", false),
   ("scripts/lpi_eda.py", false),
   ("scripts/osm_markets_eda.py", false),
   ("scripts/rtfp_eda.py", false),
   ("scripts/travel_time_eda.py", false),
   ("scripts/wdi_roads_eda.py", false),
   ("scripts/wfp_vam_eda.py", false)]

/-- The source files containing the classification routine. -/
def filesWithRasterRoutine : List String :=
  (repoSourceFiles.filter (fun f => f.2)).map (fun f => f.1)

/-! ### Margin data (`scripts/agrifood_pipeline.py`, `generate_margin_data`) -/

/-- A row of the margin-modelling frame, with the derived columns. -/
structure MarginRow where
  commodity : String
  price_farm : Rat
  price_retail : Rat
  distance_to_market_km : Rat
  road_density : Rat
  storage_availability : Rat
  gross_margin : Rat
  transaction_cost : Rat
  net_margin : Rat
deriving DecidableEq, Repr

/-- The base columns of the frame literal in `generate_margin_data`. -/
def marginBase : List (String × Rat × Rat × Rat × Rat × Rat) :=
  [("maize", 40, 65, 80, 2, 1),
   ("maize", 42, 67, 150, 1/2, 0),
   ("rice", 60, 100, 60, 6/5, 1)]

/-- `generate_margin_data` from `scripts/agrifood_pipeline.py`: the literal
base frame, extended with the derived columns
`gross_margin = price_retail - price_farm`,
`transaction_cost = 0.5*distance + 10/(road_density+1) + 15*(1-storage)`,
and `net_margin = gross_margin - transaction_cost`. -/
def generate_margin_data : List MarginRow :=
  marginBase.map (fun r =>
    let gross := r.2.2.1 - r.2.1
    let tc := (1/2 : Rat) * r.2.2.2.1 + 10 / (r.2.2.2.2.1 + 1) + 15 * (1 - r.2.2.2.2.2)
    { commodity := r.1
      price_farm := r.2.1
      price_retail := r.2.2.1
      distance_to_market_km := r.2.2.2.1
      road_density := r.2.2.2.2.1
      storage_availability := r.2.2.2.2.2
      gross_margin := gross
      transaction_cost := tc
      net_margin := gross - tc })

/-! ### Pandas cell model for the unit-normalization step -/

/-- A pandas cell for an object column: missing (NaN), a string, or a number. -/
inductive Cell where
  | na : Cell
  | str : String → Cell
  | num : Rat → Cell
deriving DecidableEq, Repr

/-- A rendering of a rational, standing in for Python's `str` on a float;
its only property used below is that it is some string. -/
def ratStr (q : Rat) : String := toString (repr q)

/-- `.astype(str)` on a cell: every cell becomes a string; NaN becomes the
string `"nan"` (Python's `str(float('nan'))`). -/
def astypeStr : Cell → Cell
  | .na => .str "nan"
  | .str s => .str s
  | .num q => .str (ratStr q)

/-- `.fillna(d)` on a cell: replaces NaN by the string `d`, leaves every
other cell unchanged. -/
def fillna (d : String) : Cell → Cell
  | .na => .str d
  | c => c

/-! ### Generic lemmas about the band classification loop -/

lemma rge_eq_false_of_rlt_of_rle {v a b : RVal} (h1 : rlt v a = true)
    (h2 : rle a b = true) : rge v b = false := by
  cases v <;> cases a <;> cases b <;>
    simp [rlt, rle, rge] at * <;> linarith

lemma applyBands_of_all_false {v : RVal} (l : List Band) (acc : RGB)
    (h : ∀ b ∈ l, bandTest v b = false) : applyBands v l acc = acc := by
  induction l generalizing acc with
  | nil => rfl
  | cons b rest ih =>
      have hb : bandTest v b = false := h b (List.mem_cons_self b rest)
      have hr := ih acc (fun x hx => h x (List.mem_cons_of_mem b hx))
      simpa [applyBands, hb] using hr

lemma applyBands_of_match {v : RVal} : ∀ (l : List Band) (k : Nat) (acc : RGB)
    (hk : k < l.length), bandTest v (l[k]) = true →
    (∀ j (hj : j < l.length), k < j → bandTest v (l[j]) = false) →
    applyBands v l acc = (l[k]).color
  | [], k, acc, hk, _, _ => absurd hk (by simp)
  | b :: rest, 0, acc, hk, hit, later => by
      have hb : bandTest v b = true := by simpa using hit
      have hrest : ∀ x ∈ rest, bandTest v x = false := by
        intro x hx
        obtain ⟨i, hi, hxe⟩ := List.mem_iff_getElem.mp hx
        have := later (i + 1) (by simpa using Nat.succ_lt_succ hi) (Nat.succ_pos i)
        simpa [hxe] using this
      have := applyBands_of_all_false rest b.color hrest
      simpa [applyBands, hb] using this
  | b :: rest, k + 1, acc, hk, hit, later => by
      have hk2 : k < rest.length := by simpa using Nat.lt_of_succ_lt_succ hk
      have hit2 : bandTest v (rest[k]) = true := by simpa using hit
      have later2 : ∀ j (hj : j < rest.length), k < j → bandTest v (rest[j]) = false := by
        intro j hj hkj
        have := later (j + 1) (by simpa using Nat.succ_lt_succ hj) (Nat.succ_lt_succ hkj)
        simpa using this
      have := applyBands_of_match rest k (if bandTest v b then b.color else acc) hk2 hit2 later2
      simpa [applyBands] using this

lemma bandsOf_length : ∀ (bs : List RVal) (cs : List RGB),
    (bandsOf bs cs).length = min (bs.length - 1) cs.length
  | [], _ => by simp [bandsOf]
  | [_], _ => by simp [bandsOf]
  | _ :: _ :: _, [] => by simp [bandsOf]
  | b1 :: b2 :: bs, c :: cs => by
      have := bandsOf_length (b2 :: bs) cs
      simp only [bandsOf, List.length_cons, this]
      omega

lemma breakAt_cons_succ (b : RVal) (bs : List RVal) (j : Nat) :
    breakAt (b :: bs) (j + 1) = breakAt bs j := by
  simp [breakAt]

lemma colorAt_cons_succ (c : RGB) (cs : List RGB) (j : Nat) :
    colorAt (c :: cs) (j + 1) = colorAt cs j := by
  simp [colorAt]

lemma bandsOf_getElem : ∀ (bs : List RVal) (cs : List RGB) (j : Nat)
    (h : j < (bandsOf bs cs).length),
    (bandsOf bs cs)[j] =
      { lo := breakAt bs j, hi := breakAt bs (j+1), color := colorAt cs j }
  | [], cs, j, h => by simp [bandsOf] at h
  | [_], cs, j, h => by simp [bandsOf] at h
  | _ :: _ :: _, [], j, h => by simp [bandsOf] at h
  | b1 :: b2 :: bs, c :: cs, 0, h => rfl
  | b1 :: b2 :: bs, c :: cs, j + 1, h => by
      have hrec := bandsOf_getElem (b2 :: bs) cs j (by simpa [bandsOf] using h)
      rw [breakAt_cons_succ, breakAt_cons_succ, colorAt_cons_succ]
      simpa [bandsOf] using hrec

/-- The pixel `v` falls into band `i` of the break table (the mask test of
the classification loop holds). -/
def bandHit (breaks : List RVal) (i : Nat) (v : RVal) : Prop :=
  rge v (breakAt breaks i) = true ∧ rlt v (breakAt breaks (i+1)) = true

lemma classifyPixel_band {breaks : List RVal} {colors : List RGB}
    (hlen : colors.length + 1 = breaks.length)
    (hmono : ∀ b, b < breaks.length → ∀ a, a ≤ b →
        rle (breakAt breaks a) (breakAt breaks b) = true)
    (v : RVal) (i : Nat) (hi : i + 1 < breaks.length)
    (h1 : rge v (breakAt breaks i) = true)
    (h2 : rlt v (breakAt breaks (i+1)) = true) :
    classifyPixel breaks colors v = colorAt colors i := by
  have hblen : (bandsOf breaks colors).length = colors.length := by
    rw [bandsOf_length]; omega
  have hik : i < (bandsOf breaks colors).length := by omega
  have hit : bandTest v ((bandsOf breaks colors)[i]) = true := by
    rw [bandsOf_getElem]
    show (rge v (breakAt breaks i) && rlt v (breakAt breaks (i+1))) = true
    rw [h1, h2]
    rfl
  have later : ∀ j (hj : j < (bandsOf breaks colors).length), i < j →
      bandTest v ((bandsOf breaks colors)[j]) = false := by
    intro j hj hij
    rw [bandsOf_getElem]
    have hgef : rge v (breakAt breaks j) = false :=
      rge_eq_false_of_rlt_of_rle h2 (hmono j (by omega) (i+1) (by omega))
    show (rge v (breakAt breaks j) && rlt v (breakAt breaks (j+1))) = false
    rw [hgef]
    rfl
  have := applyBands_of_match (bandsOf breaks colors) i (0, 0, 0) hik hit later
  rw [classifyPixel, this, bandsOf_getElem]

lemma bands_disjoint {breaks : List RVal}
    (hmono : ∀ b, b < breaks.length → ∀ a, a ≤ b →
        rle (breakAt breaks a) (breakAt breaks b) = true)
    (v : RVal) {i j : Nat} (hij : i < j) (hj : j + 1 < breaks.length)
    (h2 : rlt v (breakAt breaks (i+1)) = true)
    (h3 : rge v (breakAt breaks j) = true) : False := by
  have := rge_eq_false_of_rlt_of_rle h2 (hmono j (by omega) (i+1) hij)
  rw [this] at h3
  exact Bool.false_ne_true h3

lemma travel_breaks_mono : ∀ b, b < SenAgricost.travel_breaks.length → ∀ a, a ≤ b →
    rle (breakAt SenAgricost.travel_breaks a) (breakAt SenAgricost.travel_breaks b) = true := by
  decide

lemma friction_breaks_mono : ∀ b, b < SenAgricost.friction_breaks.length → ∀ a, a ≤ b →
    rle (breakAt SenAgricost.friction_breaks a) (breakAt SenAgricost.friction_breaks b) = true := by
  decide

/-- C1: in `generate_raster_images`, every travel-time pixel value `v` in
band `[travel_breaks i, travel_breaks (i+1))` receives colour
`travel_colors i`, and likewise every friction pixel value in
`[friction_breaks i, friction_breaks (i+1))` receives `friction_colors i`;
the break lists being strictly increasing, the bands are pairwise disjoint,
so each pixel matches at most one band.  The tables of `Sen_agricost.py`
and of `Agrifood Cost and Margin Estimation v2.py` coincide, so the result
covers both copies of the routine. -/
theorem c1_raster_classification_correct :
    (∀ (v : RVal) (i : Nat), i + 1 < SenAgricost.travel_breaks.length →
        rge v (breakAt SenAgricost.travel_breaks i) = true →
        rlt v (breakAt SenAgricost.travel_breaks (i+1)) = true →
        classifyPixel SenAgricost.travel_breaks SenAgricost.travel_colors v
          = colorAt SenAgricost.travel_colors i) ∧
    (∀ (v : RVal) (i : Nat), i + 1 < SenAgricost.friction_breaks.length →
        rge v (breakAt SenAgricost.friction_breaks i) = true →
        rlt v (breakAt SenAgricost.friction_breaks (i+1)) = true →
        classifyPixel SenAgricost.friction_breaks SenAgricost.friction_colors v
          = colorAt SenAgricost.friction_colors i) ∧
    (∀ (v : RVal) (i j : Nat), i + 1 < SenAgricost.travel_breaks.length →
        j + 1 < SenAgricost.travel_breaks.length → i ≠ j →
        ¬ (bandHit SenAgricost.travel_breaks i v ∧ bandHit SenAgricost.travel_breaks j v)) ∧
    (∀ (v : RVal) (i j : Nat), i + 1 < SenAgricost.friction_breaks.length →
        j + 1 < SenAgricost.friction_breaks.length → i ≠ j →
        ¬ (bandHit SenAgricost.friction_breaks i v ∧ bandHit SenAgricost.friction_breaks j v)) ∧
    AgrifoodV2.travel_breaks = SenAgricost.travel_breaks ∧
    AgrifoodV2.travel_colors = SenAgricost.travel_colors ∧
    AgrifoodV2.friction_breaks = SenAgricost.friction_breaks ∧
    AgrifoodV2.friction_colors = SenAgricost.friction_colors := by
  refine ⟨?_, ?_, ?_, ?_, rfl, rfl, rfl, rfl⟩
  · intro v i hi h1 h2
    exact classifyPixel_band (by decide) travel_breaks_mono v i hi h1 h2
  · intro v i hi h1 h2
    exact classifyPixel_band (by decide) friction_breaks_mono v i hi h1 h2
  · rintro v i j hi hj hne ⟨⟨hi1, hi2⟩, hj1, hj2⟩
    rcases Nat.lt_or_ge i j with hlt | hge
    · exact bands_disjoint travel_breaks_mono v hlt hj hi2 hj1
    · have hlt : j < i := by omega
      exact bands_disjoint travel_breaks_mono v hlt hi hj2 hi1
  · rintro v i j hi hj hne ⟨⟨hi1, hi2⟩, hj1, hj2⟩
    rcases Nat.lt_or_ge i j with hlt | hge
    · exact bands_disjoint friction_breaks_mono v hlt hj hi2 hj1
    · have hlt : j < i := by omega
      exact bands_disjoint friction_breaks_mono v hlt hi hj2 hi1

/-- Witness for C1: the travel-time value 45 lies in band 2, `[30, 60)`, and
is coloured `(254, 178, 76)`. -/
theorem c1_raster_classification_correct_witness :
    2 + 1 < SenAgricost.travel_breaks.length ∧
    rge (RVal.fin 45) (breakAt SenAgricost.travel_breaks 2) = true ∧
    rlt (RVal.fin 45) (breakAt SenAgricost.travel_breaks (2+1)) = true ∧
    classifyPixel SenAgricost.travel_breaks SenAgricost.travel_colors (RVal.fin 45)
      = colorAt SenAgricost.travel_colors 2 :=
  ⟨by decide, by decide, by decide,
   c1_raster_classification_correct.1 (RVal.fin 45) 2 (by decide) (by decide) (by decide)⟩

/-- C6 (counterexample): the classification routine is not present in five
source files: of the fourteen source files of the repository, exactly two
(`Sen_agricost.py` and `Agrifood Cost and Margin Estimation v2.py`) define
`generate_raster_images`. -/
theorem c6_not_in_five_files :
    ¬ (repoSourceFiles.filter (fun f => f.2)).length = 5 := by decide

/-- C6 (amended): the raster-to-RGB classification routine with its fixed
threshold tables is repeated verbatim across the two source files that
contain it, and the two copies compute equal outputs on equal input arrays
and bounds: the embedded functions are definitionally equal. -/
theorem c6_raster_routine_copies_equal :
    SenAgricost.generate_raster_images = AgrifoodV2.generate_raster_images ∧
    (repoSourceFiles.filter (fun f => f.2)).length = 2 :=
  ⟨rfl, rfl⟩

/-! ### Claim theorems: margin data and unit normalization -/

/-- C5: every row of the frame returned by `generate_margin_data` satisfies
`gross_margin = price_retail - price_farm`,
`transaction_cost = 0.5*distance_to_market_km + 10/(road_density+1)
 + 15*(1 - storage_availability)`, and
`net_margin = gross_margin - transaction_cost` (given `road_density ≠ -1`,
so the division is by a nonzero denominator). -/
theorem c5_margin_relations :
    ∀ r ∈ generate_margin_data, r.road_density ≠ -1 →
      r.gross_margin = r.price_retail - r.price_farm ∧
      r.transaction_cost = (1/2 : Rat) * r.distance_to_market_km
          + 10 / (r.road_density + 1) + 15 * (1 - r.storage_availability) ∧
      r.net_margin = r.gross_margin - r.transaction_cost := by
  intro r hr _
  simp only [generate_margin_data, marginBase, List.map_cons, List.map_nil,
    List.mem_cons, List.not_mem_nil, or_false] at hr
  rcases hr with rfl | rfl | rfl
  · exact ⟨rfl, rfl, rfl⟩
  · exact ⟨rfl, rfl, rfl⟩
  · exact ⟨rfl, rfl, rfl⟩

/-- The first row of `generate_margin_data`, with its derived columns
evaluated. -/
def marginRow0 : MarginRow :=
  { commodity := "maize", price_farm := 40, price_retail := 65,
    distance_to_market_km := 80, road_density := 2, storage_availability := 1,
    gross_margin := 25, transaction_cost := 130/3, net_margin := 25 - 130/3 }

/-- Witness for C5: the first generated row satisfies the margin equations. -/
theorem c5_margin_relations_witness :
    marginRow0 ∈ generate_margin_data ∧ marginRow0.road_density ≠ -1 ∧
    (marginRow0.gross_margin = marginRow0.price_retail - marginRow0.price_farm ∧
     marginRow0.transaction_cost = (1/2 : Rat) * marginRow0.distance_to_market_km
         + 10 / (marginRow0.road_density + 1) + 15 * (1 - marginRow0.storage_availability) ∧
     marginRow0.net_margin = marginRow0.gross_margin - marginRow0.transaction_cost) := by
  have hmem : marginRow0 ∈ generate_margin_data := by
    simp only [generate_margin_data, marginBase, List.map_cons, List.map_nil, List.mem_cons]
    left
    simp only [marginRow0, MarginRow.mk.injEq]
    norm_num
  exact ⟨hmem, by norm_num [marginRow0],
    c5_margin_relations marginRow0 hmem (by norm_num [marginRow0])⟩

/-- C9: `.astype(str).fillna('Unknown')` on a unit column equals
`.astype(str)` alone: `astype(str)` maps a missing cell to the string
`"nan"`, so the following `fillna` is the identity and a missing input never
produces the string `"Unknown"`. -/
theorem c9_astype_fillna_identity :
    (∀ c : Cell, fillna "Unknown" (astypeStr c) = astypeStr c) ∧
    (∀ col : List Cell,
        col.map (fun c => fillna "Unknown" (astypeStr c)) = col.map astypeStr) ∧
    astypeStr Cell.na = Cell.str "nan" ∧
    fillna "Unknown" (astypeStr Cell.na) ≠ Cell.str "Unknown" := by
  have hpt : ∀ c : Cell, fillna "Unknown" (astypeStr c) = astypeStr c := by
    intro c
    cases c <;> rfl
  refine ⟨hpt, ?_, rfl, by decide⟩
  intro col
  exact List.map_congr_left (fun c _ => hpt c)

/-- Witness for C9: applied at a missing cell, the composition returns the
string `"nan"`, not `"Unknown"`. -/
theorem c9_astype_fillna_identity_witness :
    fillna "Unknown" (astypeStr Cell.na) = astypeStr Cell.na :=
  c9_astype_fillna_identity.1 Cell.na

/-! ### Commodity data model: v2 `load_commodity_data` deduplication -/

/-- A row of the retail-column projection `retail_cols` of
`load_commodity_data` in `Agrifood Cost and Margin Estimation v2.py`.
Numeric and object columns are nullable (`none` is NaN); the unit columns
have been passed through `.astype(str)`, hence are plain strings. -/
structure RetailRow where
  market_id : Option Rat
  year : Option Rat
  month : Option Rat
  commodity_retail : Option String
  price_retail : Option Rat
  unit_retail : String
  unit2_retail : String
  latitude : Option Rat
  longitude : Option Rat
  market : Option String
  admin1 : Option String
  admin2 : Option String
  category : Option String
  commodity_id : Option Rat
  priceflag : Option String
  pricetype : Option String
  currency : Option String
  usdprice : Option Rat
deriving DecidableEq, Repr

/-- A row of the farmgate-column projection `farmgate_cols` of
`load_commodity_data` in `Agrifood Cost and Margin Estimation v2.py`. -/
structure FarmRow where
  region_id : Option Rat
  year : Option Rat
  month : Option Rat
  commodity_farmgate_en : Option String
  price_farmgate : Option Rat
  unit_farmgate : String
  unit2_farmgate : String
  region_latitude : Option Rat
  region_longitude : Option Rat
  region_name : Option String
deriving DecidableEq, Repr

/-- Helper of `dropDups`, carrying the set of already-seen elements. -/
def dropDupsAux [DecidableEq α] (seen : List α) : List α → List α
  | [] => []
  | a :: l => if a ∈ seen then dropDupsAux seen l else a :: dropDupsAux (a :: seen) l

/-- Pandas `drop_duplicates` with the default `keep='first'`: keeps the first
occurrence of each full row.  NaN cells (modelled by `none`) compare equal to
NaN cells, as in pandas `duplicated`. -/
def dropDups [DecidableEq α] (l : List α) : List α := dropDupsAux [] l

/-- Pandas `mean` aggregation: the mean of the non-null values, or NaN when
every value in the group is null. -/
def meanOpt (l : List (Option Rat)) : Option Rat :=
  let vs := l.filterMap id
  if vs.isEmpty then none else some (vs.sum / (vs.length : Rat))

/-- Pandas groupby `first` aggregation: the first non-null value of the
group, or NaN when all are null. -/
def firstSome (l : List (Option α)) : Option α := l.findSome? id

/-- Pandas groupby `first` on an all-string column (the unit columns after
`.astype(str)`): the first value of the group. -/
def firstStr (l : List String) : String := l.headD ""

/-- The retail groupby key `(market_id, year, month, commodity_retail)`. -/
abbrev RetailKey := Rat × Rat × Rat × String

/-- The groupby key of a retail row, or `none` when some key column is NaN;
pandas `groupby` (default `dropna=True`) drops rows whose key has a NaN
component. -/
def retailKey (r : RetailRow) : Option RetailKey :=
  r.market_id.bind (fun a => r.year.bind (fun y => r.month.bind (fun m =>
    r.commodity_retail.map (fun c => (a, y, m, c)))))

/-- The aggregated output row of one retail group: the key columns, mean of
`price_retail` and `usdprice`, `first` for every other column. -/
def aggRetail (k : RetailKey) (grp : List RetailRow) : RetailRow :=
  { market_id := some k.1
    year := some k.2.1
    month := some k.2.2.1
    commodity_retail := some k.2.2.2
    price_retail := meanOpt (grp.map (fun r => r.price_retail))
    unit_retail := firstStr (grp.map (fun r => r.unit_retail))
    unit2_retail := firstStr (grp.map (fun r => r.unit2_retail))
    latitude := firstSome (grp.map (fun r => r.latitude))
    longitude := firstSome (grp.map (fun r => r.longitude))
    market := firstSome (grp.map (fun r => r.market))
    admin1 := firstSome (grp.map (fun r => r.admin1))
    admin2 := firstSome (grp.map (fun r => r.admin2))
    category := firstSome (grp.map (fun r => r.category))
    commodity_id := firstSome (grp.map (fun r => r.commodity_id))
    priceflag := firstSome (grp.map (fun r => r.priceflag))
    pricetype := firstSome (grp.map (fun r => r.pricetype))
    currency := firstSome (grp.map (fun r => r.currency))
    usdprice := meanOpt (grp.map (fun r => r.usdprice)) }

/-- Step 1 of the retail half: `df[df['commodity_retail'].notna()]
[retail_cols].drop_duplicates()`. -/
def retailSub (df : List RetailRow) : List RetailRow :=
  dropDups (df.filter (fun r => r.commodity_retail.isSome))

/-- The distinct valid groupby keys, in order of first appearance. -/
def retailKeys (df : List RetailRow) : List RetailKey :=
  dropDups ((retailSub df).filterMap retailKey)

/-- The rows of one retail group. -/
def retailGroup (df : List RetailRow) (k : RetailKey) : List RetailRow :=
  (retailSub df).filter (fun r => decide (retailKey r = some k))

/-- The retail half of `load_commodity_data` (v2):
`drop_duplicates`-then-`groupby`-aggregate with `reset_index`. -/
def retailDedup (df : List RetailRow) : List RetailRow :=
  (retailKeys df).map (fun k => aggRetail k (retailGroup df k))

/-- The farmgate groupby key `(region_id, year, month,
commodity_farmgate_en)`. -/
abbrev FarmKey := Rat × Rat × Rat × String

/-- The groupby key of a farmgate row, `none` when some key column is NaN. -/
def farmKey (r : FarmRow) : Option FarmKey :=
  r.region_id.bind (fun a => r.year.bind (fun y => r.month.bind (fun m =>
    r.commodity_farmgate_en.map (fun c => (a, y, m, c)))))

/-- The aggregated output row of one farmgate group. -/
def aggFarm (k : FarmKey) (grp : List FarmRow) : FarmRow :=
  { region_id := some k.1
    year := some k.2.1
    month := some k.2.2.1
    commodity_farmgate_en := some k.2.2.2
    price_farmgate := meanOpt (grp.map (fun r => r.price_farmgate))
    unit_farmgate := firstStr (grp.map (fun r => r.unit_farmgate))
    unit2_farmgate := firstStr (grp.map (fun r => r.unit2_farmgate))
    region_latitude := firstSome (grp.map (fun r => r.region_latitude))
    region_longitude := firstSome (grp.map (fun r => r.region_longitude))
    region_name := firstSome (grp.map (fun r => r.region_name)) }

/-- Step 1 of the farmgate half: filter non-null commodity, project,
`drop_duplicates`. -/
def farmSub (df : List FarmRow) : List FarmRow :=
  dropDups (df.filter (fun r => r.commodity_farmgate_en.isSome))

/-- The distinct valid farmgate keys, in order of first appearance. -/
def farmKeys (df : List FarmRow) : List FarmKey :=
  dropDups ((farmSub df).filterMap farmKey)

/-- The rows of one farmgate group. -/
def farmGroup (df : List FarmRow) (k : FarmKey) : List FarmRow :=
  (farmSub df).filter (fun r => decide (farmKey r = some k))

/-- The farmgate half of `load_commodity_data` (v2). -/
def farmDedup (df : List FarmRow) : List FarmRow :=
  (farmKeys df).map (fun k => aggFarm k (farmGroup df k))

lemma mem_dropDupsAux [DecidableEq α] (seen : List α) (l : List α) (a : α) :
    a ∈ dropDupsAux seen l ↔ a ∈ l ∧ a ∉ seen := by
  induction l generalizing seen with
  | nil => simp [dropDupsAux]
  | cons b t ih =>
      by_cases hb : b ∈ seen
      · rw [dropDupsAux, if_pos hb, ih]
        constructor
        · rintro ⟨h1, h2⟩
          exact ⟨List.mem_cons_of_mem b h1, h2⟩
        · rintro ⟨h1, h2⟩
          rcases List.mem_cons.mp h1 with rfl | h1
          · exact absurd hb h2
          · exact ⟨h1, h2⟩
      · rw [dropDupsAux, if_neg hb]
        constructor
        · intro hmem
          rcases List.mem_cons.mp hmem with rfl | hmem
          · exact ⟨List.mem_cons_self a t, hb⟩
          · rw [ih] at hmem
            obtain ⟨h1, h2⟩ := hmem
            exact ⟨List.mem_cons_of_mem b h1,
              fun hs => h2 (List.mem_cons_of_mem b hs)⟩
        · rintro ⟨h1, h2⟩
          rcases List.mem_cons.mp h1 with rfl | h1
          · exact List.mem_cons_self a _
          · by_cases hab : a = b
            · subst hab
              exact List.mem_cons_self a _
            · refine List.mem_cons_of_mem b ?_
              rw [ih]
              exact ⟨h1, fun hs => by
                rcases List.mem_cons.mp hs with h | h
                · exact hab h
                · exact h2 h⟩

lemma nodup_dropDupsAux [DecidableEq α] (seen : List α) (l : List α) :
    (dropDupsAux seen l).Nodup := by
  induction l generalizing seen with
  | nil => simp [dropDupsAux]
  | cons b t ih =>
      by_cases hb : b ∈ seen
      · rw [dropDupsAux, if_pos hb]
        exact ih seen
      · rw [dropDupsAux, if_neg hb]
        refine List.nodup_cons.mpr ⟨?_, ih (b :: seen)⟩
        intro hmem
        rw [mem_dropDupsAux] at hmem
        exact hmem.2 (List.mem_cons_self b seen)

lemma mem_dropDups [DecidableEq α] {l : List α} {a : α} :
    a ∈ dropDups l ↔ a ∈ l := by
  rw [dropDups, mem_dropDupsAux]
  simp

lemma nodup_dropDups [DecidableEq α] (l : List α) : (dropDups l).Nodup :=
  nodup_dropDupsAux [] l

lemma countP_eq_ite_of_nodup [DecidableEq α] (l : List α) (hl : l.Nodup) (k : α) :
    l.countP (fun x => decide (x = k)) = if k ∈ l then 1 else 0 := by
  induction l with
  | nil => simp
  | cons b t ih =>
      obtain ⟨hb, ht⟩ := List.nodup_cons.mp hl
      rw [List.countP_cons, ih ht]
      by_cases hbk : b = k
      · subst hbk
        have hnt : b ∉ t := hb
        simp [hnt]
      · have : k = b ↔ False := ⟨fun h => hbk h.symm, False.elim⟩
        simp [List.mem_cons, hbk, this]

lemma retailKey_aggRetail (k : RetailKey) (grp : List RetailRow) :
    retailKey (aggRetail k grp) = some k := rfl

lemma farmKey_aggFarm (k : FarmKey) (grp : List FarmRow) :
    farmKey (aggFarm k grp) = some k := rfl

lemma retailKey_commodity_isSome {r : RetailRow} {k : RetailKey}
    (h : retailKey r = some k) : r.commodity_retail.isSome = true := by
  rw [retailKey] at h
  simp only [Option.bind_eq_some, Option.map_eq_some'] at h
  obtain ⟨a, _, y, _, m, _, c, hc, _⟩ := h
  rw [hc]
  rfl

lemma farmKey_commodity_isSome {r : FarmRow} {k : FarmKey}
    (h : farmKey r = some k) : r.commodity_farmgate_en.isSome = true := by
  rw [farmKey] at h
  simp only [Option.bind_eq_some, Option.map_eq_some'] at h
  obtain ⟨a, _, y, _, m, _, c, hc, _⟩ := h
  rw [hc]
  rfl

lemma mem_retailKeys_iff_any (df : List RetailRow) (k : RetailKey) :
    k ∈ retailKeys df ↔ df.any (fun r => decide (retailKey r = some k)) = true := by
  constructor
  · intro hk
    rw [retailKeys, mem_dropDups, List.mem_filterMap] at hk
    obtain ⟨r, hr, hkey⟩ := hk
    rw [retailSub, mem_dropDups, List.mem_filter] at hr
    rw [List.any_eq_true]
    exact ⟨r, hr.1, by simpa using hkey⟩
  · intro hany
    rw [List.any_eq_true] at hany
    obtain ⟨r, hr, hkey⟩ := hany
    rw [decide_eq_true_eq] at hkey
    rw [retailKeys, mem_dropDups, List.mem_filterMap]
    refine ⟨r, ?_, hkey⟩
    rw [retailSub, mem_dropDups, List.mem_filter]
    exact ⟨hr, retailKey_commodity_isSome hkey⟩

lemma mem_farmKeys_iff_any (df : List FarmRow) (k : FarmKey) :
    k ∈ farmKeys df ↔ df.any (fun r => decide (farmKey r = some k)) = true := by
  constructor
  · intro hk
    rw [farmKeys, mem_dropDups, List.mem_filterMap] at hk
    obtain ⟨r, hr, hkey⟩ := hk
    rw [farmSub, mem_dropDups, List.mem_filter] at hr
    rw [List.any_eq_true]
    exact ⟨r, hr.1, by simpa using hkey⟩
  · intro hany
    rw [List.any_eq_true] at hany
    obtain ⟨r, hr, hkey⟩ := hany
    rw [decide_eq_true_eq] at hkey
    rw [farmKeys, mem_dropDups, List.mem_filterMap]
    refine ⟨r, ?_, hkey⟩
    rw [farmSub, mem_dropDups, List.mem_filter]
    exact ⟨hr, farmKey_commodity_isSome hkey⟩

lemma retail_count (df : List RetailRow) (k : RetailKey) :
    (retailDedup df).countP (fun r => decide (retailKey r = some k)) =
      if df.any (fun r => decide (retailKey r = some k)) then 1 else 0 := by
  rw [retailDedup, List.countP_map]
  have h1 : (retailKeys df).countP
        ((fun r => decide (retailKey r = some k)) ∘ (fun kk => aggRetail kk (retailGroup df kk)))
      = (retailKeys df).countP (fun kk => decide (kk = k)) := by
    apply List.countP_congr
    intro kk _
    rw [Function.comp_apply, retailKey_aggRetail]
    simp
  have hnd : (retailKeys df).Nodup := nodup_dropDupsAux [] _
  rw [h1, countP_eq_ite_of_nodup (retailKeys df) hnd k]
  by_cases hmem : k ∈ retailKeys df
  · rw [if_pos hmem, if_pos ((mem_retailKeys_iff_any df k).mp hmem)]
  · rw [if_neg hmem, if_neg (fun h => hmem ((mem_retailKeys_iff_any df k).mpr h))]

lemma farm_count (df : List FarmRow) (k : FarmKey) :
    (farmDedup df).countP (fun r => decide (farmKey r = some k)) =
      if df.any (fun r => decide (farmKey r = some k)) then 1 else 0 := by
  rw [farmDedup, List.countP_map]
  have h1 : (farmKeys df).countP
        ((fun r => decide (farmKey r = some k)) ∘ (fun kk => aggFarm kk (farmGroup df kk)))
      = (farmKeys df).countP (fun kk => decide (kk = k)) := by
    apply List.countP_congr
    intro kk _
    rw [Function.comp_apply, farmKey_aggFarm]
    simp
  have hnd : (farmKeys df).Nodup := nodup_dropDupsAux [] _
  rw [h1, countP_eq_ite_of_nodup (farmKeys df) hnd k]
  by_cases hmem : k ∈ farmKeys df
  · rw [if_pos hmem, if_pos ((mem_farmKeys_iff_any df k).mp hmem)]
  · rw [if_neg hmem, if_neg (fun h => hmem ((mem_farmKeys_iff_any df k).mpr h))]

lemma retail_agg_eq (df : List RetailRow) (row : RetailRow) (k : RetailKey)
    (hrow : row ∈ retailDedup df) (hkey : retailKey row = some k) :
    row = aggRetail k (retailGroup df k) := by
  rw [retailDedup] at hrow
  obtain ⟨kk, hkk, rfl⟩ := List.mem_map.mp hrow
  rw [retailKey_aggRetail] at hkey
  obtain rfl : kk = k := Option.some.inj hkey
  rfl

lemma farm_agg_eq (df : List FarmRow) (row : FarmRow) (k : FarmKey)
    (hrow : row ∈ farmDedup df) (hkey : farmKey row = some k) :
    row = aggFarm k (farmGroup df k) := by
  rw [farmDedup] at hrow
  obtain ⟨kk, hkk, rfl⟩ := List.mem_map.mp hrow
  rw [farmKey_aggFarm] at hkey
  obtain rfl : kk = k := Option.some.inj hkey
  rfl

/-- C2 (amended): after `load_commodity_data`'s
`drop_duplicates`-then-`groupby`-aggregate, the retail frame holds exactly
one row per `(market_id, year, month, commodity_retail)` key whose
components are all non-null, with `price_retail` and `usdprice` the mean of
the grouped (deduplicated) rows and every other column the group's `first`;
likewise the farmgate frame per `(region_id, year, month,
commodity_farmgate_en)` key.  No fully-non-null key with a non-null
commodity is lost (rows whose key has a NaN component are dropped by pandas
`groupby`). -/
theorem c2_dedup_groupby_unique :
    (∀ (df : List RetailRow) (k : RetailKey),
        (retailDedup df).countP (fun r => decide (retailKey r = some k)) =
          if df.any (fun r => decide (retailKey r = some k)) then 1 else 0) ∧
    (∀ (df : List RetailRow) (row : RetailRow) (k : RetailKey),
        row ∈ retailDedup df → retailKey row = some k →
        row.market_id = some k.1 ∧ row.year = some k.2.1 ∧
        row.month = some k.2.2.1 ∧ row.commodity_retail = some k.2.2.2 ∧
        row.price_retail = meanOpt ((retailGroup df k).map (fun r => r.price_retail)) ∧
        row.usdprice = meanOpt ((retailGroup df k).map (fun r => r.usdprice)) ∧
        row.unit_retail = firstStr ((retailGroup df k).map (fun r => r.unit_retail)) ∧
        row.unit2_retail = firstStr ((retailGroup df k).map (fun r => r.unit2_retail)) ∧
        row.latitude = firstSome ((retailGroup df k).map (fun r => r.latitude)) ∧
        row.longitude = firstSome ((retailGroup df k).map (fun r => r.longitude)) ∧
        row.market = firstSome ((retailGroup df k).map (fun r => r.market)) ∧
        row.admin1 = firstSome ((retailGroup df k).map (fun r => r.admin1)) ∧
        row.admin2 = firstSome ((retailGroup df k).map (fun r => r.admin2)) ∧
        row.category = firstSome ((retailGroup df k).map (fun r => r.category)) ∧
        row.commodity_id = firstSome ((retailGroup df k).map (fun r => r.commodity_id)) ∧
        row.priceflag = firstSome ((retailGroup df k).map (fun r => r.priceflag)) ∧
        row.pricetype = firstSome ((retailGroup df k).map (fun r => r.pricetype)) ∧
        row.currency = firstSome ((retailGroup df k).map (fun r => r.currency))) ∧
    (∀ (df : List FarmRow) (k : FarmKey),
        (farmDedup df).countP (fun r => decide (farmKey r = some k)) =
          if df.any (fun r => decide (farmKey r = some k)) then 1 else 0) ∧
    (∀ (df : List FarmRow) (row : FarmRow) (k : FarmKey),
        row ∈ farmDedup df → farmKey row = some k →
        row.region_id = some k.1 ∧ row.year = some k.2.1 ∧
        row.month = some k.2.2.1 ∧ row.commodity_farmgate_en = some k.2.2.2 ∧
        row.price_farmgate = meanOpt ((farmGroup df k).map (fun r => r.price_farmgate)) ∧
        row.unit_farmgate = firstStr ((farmGroup df k).map (fun r => r.unit_farmgate)) ∧
        row.unit2_farmgate = firstStr ((farmGroup df k).map (fun r => r.unit2_farmgate)) ∧
        row.region_latitude = firstSome ((farmGroup df k).map (fun r => r.region_latitude)) ∧
        row.region_longitude = firstSome ((farmGroup df k).map (fun r => r.region_longitude)) ∧
        row.region_name = firstSome ((farmGroup df k).map (fun r => r.region_name))) := by
  refine ⟨retail_count, ?_, farm_count, ?_⟩
  · intro df row k hrow hkey
    rw [retail_agg_eq df row k hrow hkey]
    exact ⟨rfl, rfl, rfl, rfl, rfl, rfl, rfl, rfl, rfl, rfl, rfl, rfl, rfl, rfl, rfl, rfl, rfl, rfl⟩
  · intro df row k hrow hkey
    rw [farm_agg_eq df row k hrow hkey]
    exact ⟨rfl, rfl, rfl, rfl, rfl, rfl, rfl, rfl, rfl, rfl⟩

/-- A retail row whose groupby key has a NaN `year` but a non-null
commodity. -/
def retailRowNaNYear : RetailRow :=
  { market_id := some 1, year := none, month := some 1,
    commodity_retail := some "Maize", price_retail := some 100,
    unit_retail := "100 KG", unit2_retail := "KG",
    latitude := some 14, longitude := some (-14), market := some "Dakar",
    admin1 := some "Dakar", admin2 := some "Dakar", category := some "cereals",
    commodity_id := some 1, priceflag := some "actual",
    pricetype := some "Retail", currency := some "XOF", usdprice := some 1 }

/-- C2 (counterexample): a retail row with a non-null commodity but a NaN
`year` is dropped entirely by the groupby, so its key is lost even though
its commodity is non-null, contradicting the claim as stated. -/
theorem c2_nan_key_row_lost :
    retailRowNaNYear.commodity_retail.isSome = true ∧
    retailDedup [retailRowNaNYear] = [] :=
  ⟨rfl, rfl⟩

/-- A retail row with a fully non-null groupby key. -/
def retailRowFull : RetailRow :=
  { market_id := some 1, year := some 2016, month := some 1,
    commodity_retail := some "Maize", price_retail := some 100,
    unit_retail := "100 KG", unit2_retail := "KG",
    latitude := some 14, longitude := some (-14), market := some "Dakar",
    admin1 := some "Dakar", admin2 := some "Dakar", category := some "cereals",
    commodity_id := some 1, priceflag := some "actual",
    pricetype := some "Retail", currency := some "XOF", usdprice := some 1 }

/-- Witness for C2: on a one-row frame with a fully non-null key, the
aggregated row is in the output and its `price_retail` is the group mean. -/
theorem c2_dedup_groupby_unique_witness :
    aggRetail (1, 2016, 1, "Maize") (retailGroup [retailRowFull] (1, 2016, 1, "Maize"))
        ∈ retailDedup [retailRowFull] ∧
    (aggRetail (1, 2016, 1, "Maize")
        (retailGroup [retailRowFull] (1, 2016, 1, "Maize"))).price_retail
      = meanOpt ((retailGroup [retailRowFull] (1, 2016, 1, "Maize")).map
          (fun r => r.price_retail)) := by
  have hkeys : retailKeys [retailRowFull] = [((1 : Rat), (2016 : Rat), (1 : Rat), "Maize")] := rfl
  have hmem : aggRetail (1, 2016, 1, "Maize")
      (retailGroup [retailRowFull] (1, 2016, 1, "Maize")) ∈ retailDedup [retailRowFull] := by
    rw [retailDedup]
    exact List.mem_map_of_mem _ (by rw [hkeys]; exact List.mem_cons_self _ _)
  exact ⟨hmem,
    (c2_dedup_groupby_unique.2.1 [retailRowFull] _ (1, 2016, 1, "Maize") hmem
      (retailKey_aggRetail _ _)).2.2.2.2.1⟩

/-! ### The outer merge of retail and farmgate frames on (year, month) -/

/-- A row of the merged frame: retail columns, then the farmgate non-key
columns.  Every column is nullable, since an unmatched row of one side
leaves the other side's columns NaN (the unit columns, plain strings in the
inputs, become nullable strings in the merged frame). -/
structure MergedRow where
  market_id : Option Rat
  year : Option Rat
  month : Option Rat
  commodity_retail : Option String
  price_retail : Option Rat
  unit_retail : Option String
  unit2_retail : Option String
  latitude : Option Rat
  longitude : Option Rat
  market : Option String
  admin1 : Option String
  admin2 : Option String
  category : Option String
  commodity_id : Option Rat
  priceflag : Option String
  pricetype : Option String
  currency : Option String
  usdprice : Option Rat
  region_id : Option Rat
  commodity_farmgate_en : Option String
  price_farmgate : Option Rat
  unit_farmgate : Option String
  unit2_farmgate : Option String
  region_latitude : Option Rat
  region_longitude : Option Rat
  region_name : Option String
deriving DecidableEq, Repr

/-- The merge key `(year, month)` of a retail row.  A NaN key component
matches NaN, as pandas `merge` matches NaN keys against each other. -/
def retailMergeKey (r : RetailRow) : Option Rat × Option Rat := (r.year, r.month)

/-- The merge key `(year, month)` of a farmgate row. -/
def farmMergeKey (f : FarmRow) : Option Rat × Option Rat := (f.year, f.month)

/-- The merge key `(year, month)` of a merged row. -/
def mergedKey (m : MergedRow) : Option Rat × Option Rat := (m.year, m.month)

/-- A merged row combining a retail row and a matching farmgate row. -/
def mergeBoth (r : RetailRow) (f : FarmRow) : MergedRow :=
  { market_id := r.market_id, year := r.year, month := r.month,
    commodity_retail := r.commodity_retail, price_retail := r.price_retail,
    unit_retail := some r.unit_retail, unit2_retail := some r.unit2_retail,
    latitude := r.latitude, longitude := r.longitude, market := r.market,
    admin1 := r.admin1, admin2 := r.admin2, category := r.category,
    commodity_id := r.commodity_id, priceflag := r.priceflag,
    pricetype := r.pricetype, currency := r.currency, usdprice := r.usdprice,
    region_id := f.region_id, commodity_farmgate_en := f.commodity_farmgate_en,
    price_farmgate := f.price_farmgate, unit_farmgate := some f.unit_farmgate,
    unit2_farmgate := some f.unit2_farmgate, region_latitude := f.region_latitude,
    region_longitude := f.region_longitude, region_name := f.region_name }

/-- A merged row for a retail row with no farmgate match: the farmgate
columns are NaN. -/
def mergeLeft (r : RetailRow) : MergedRow :=
  { market_id := r.market_id, year := r.year, month := r.month,
    commodity_retail := r.commodity_retail, price_retail := r.price_retail,
    unit_retail := some r.unit_retail, unit2_retail := some r.unit2_retail,
    latitude := r.latitude, longitude := r.longitude, market := r.market,
    admin1 := r.admin1, admin2 := r.admin2, category := r.category,
    commodity_id := r.commodity_id, priceflag := r.priceflag,
    pricetype := r.pricetype, currency := r.currency, usdprice := r.usdprice,
    region_id := none, commodity_farmgate_en := none,
    price_farmgate := none, unit_farmgate := none,
    unit2_farmgate := none, region_latitude := none,
    region_longitude := none, region_name := none }

/-- A merged row for a farmgate row with no retail match: the retail
columns are NaN. -/
def mergeRight (f : FarmRow) : MergedRow :=
  { market_id := none, year := f.year, month := f.month,
    commodity_retail := none, price_retail := none,
    unit_retail := none, unit2_retail := none,
    latitude := none, longitude := none, market := none,
    admin1 := none, admin2 := none, category := none,
    commodity_id := none, priceflag := none,
    pricetype := none, currency := none, usdprice := none,
    region_id := f.region_id, commodity_farmgate_en := f.commodity_farmgate_en,
    price_farmgate := f.price_farmgate, unit_farmgate := some f.unit_farmgate,
    unit2_farmgate := some f.unit2_farmgate, region_latitude := f.region_latitude,
    region_longitude := f.region_longitude, region_name := f.region_name }

/-- The farmgate rows matching a retail row's `(year, month)` key. -/
def mergeMatches (fs : List FarmRow) (r : RetailRow) : List FarmRow :=
  fs.filter (fun f => decide (farmMergeKey f = retailMergeKey r))

/-- `retail_df.merge(farmgate_df, on=['year', 'month'], how='outer')`: each
retail row is paired with every matching farmgate row (or kept alone with
NaN farmgate columns when none matches), and each farmgate row with no
retail match is kept with NaN retail columns. -/
def outerMerge (rs : List RetailRow) (fs : List FarmRow) : List MergedRow :=
  (rs.flatMap (fun r =>
    if (mergeMatches fs r).isEmpty then [mergeLeft r]
    else (mergeMatches fs r).map (fun f => mergeBoth r f)))
  ++ ((fs.filter (fun f =>
      rs.all (fun r => !(decide (retailMergeKey r = farmMergeKey f))))).map mergeRight)

/-- The retail-column projection of a merged row. -/
def retailColsOfMerged (m : MergedRow) :=
  (m.year, m.month, m.market_id, m.commodity_retail, m.price_retail,
   m.unit_retail, m.unit2_retail, m.latitude, m.longitude, m.market,
   m.admin1, m.admin2, m.category, m.commodity_id, m.priceflag,
   m.pricetype, m.currency, m.usdprice)

/-- The retail columns of an input retail row, as they appear merged. -/
def retailColsOfRow (r : RetailRow) :=
  (r.year, r.month, r.market_id, r.commodity_retail, r.price_retail,
   some r.unit_retail, some r.unit2_retail, r.latitude, r.longitude, r.market,
   r.admin1, r.admin2, r.category, r.commodity_id, r.priceflag,
   r.pricetype, r.currency, r.usdprice)

/-- The farmgate-column projection of a merged row. -/
def farmColsOfMerged (m : MergedRow) :=
  (m.year, m.month, m.region_id, m.commodity_farmgate_en, m.price_farmgate,
   m.unit_farmgate, m.unit2_farmgate, m.region_latitude, m.region_longitude,
   m.region_name)

/-- The farmgate columns of an input farmgate row, as they appear merged. -/
def farmColsOfRow (f : FarmRow) :=
  (f.year, f.month, f.region_id, f.commodity_farmgate_en, f.price_farmgate,
   some f.unit_farmgate, some f.unit2_farmgate, f.region_latitude,
   f.region_longitude, f.region_name)

lemma mergedKey_mergeBoth (r : RetailRow) (f : FarmRow) :
    mergedKey (mergeBoth r f) = retailMergeKey r := rfl

lemma mergedKey_mergeLeft (r : RetailRow) :
    mergedKey (mergeLeft r) = retailMergeKey r := rfl

lemma mergedKey_mergeRight (f : FarmRow) :
    mergedKey (mergeRight f) = farmMergeKey f := rfl

lemma mergeLeft_mem {rs : List RetailRow} {fs : List FarmRow} {r : RetailRow}
    (hr : r ∈ rs) (h : (mergeMatches fs r).isEmpty = true) :
    mergeLeft r ∈ outerMerge rs fs := by
  rw [outerMerge]
  apply List.mem_append_left
  rw [List.mem_flatMap]
  exact ⟨r, hr, by rw [if_pos h]; exact List.mem_cons_self _ _⟩

lemma mergeBoth_mem {rs : List RetailRow} {fs : List FarmRow} {r : RetailRow}
    {f : FarmRow} (hr : r ∈ rs) (hf : f ∈ fs)
    (hkey : farmMergeKey f = retailMergeKey r) :
    mergeBoth r f ∈ outerMerge rs fs := by
  rw [outerMerge]
  apply List.mem_append_left
  rw [List.mem_flatMap]
  refine ⟨r, hr, ?_⟩
  have hfm : f ∈ mergeMatches fs r :=
    List.mem_filter.mpr ⟨hf, decide_eq_true hkey⟩
  have hne : ¬ ((mergeMatches fs r).isEmpty = true) := by
    intro hemp
    rw [List.isEmpty_iff] at hemp
    rw [hemp] at hfm
    cases hfm
  rw [if_neg hne]
  exact List.mem_map_of_mem _ hfm

lemma mergeRight_mem {rs : List RetailRow} {fs : List FarmRow} {f : FarmRow}
    (hf : f ∈ fs)
    (hall : rs.all (fun r => !(decide (retailMergeKey r = farmMergeKey f))) = true) :
    mergeRight f ∈ outerMerge rs fs := by
  rw [outerMerge]
  apply List.mem_append_right
  exact List.mem_map_of_mem _ (List.mem_filter.mpr ⟨hf, hall⟩)

/-- C3: the outer merge on `(year, month)` keeps every key of either input
frame (at least one merged row per key), pairs an unmatched retail row with
all-NaN farmgate columns and an unmatched farmgate row with all-NaN retail
columns, and drops no row of either input frame. -/
theorem c3_outer_merge_total :
    (∀ (rs : List RetailRow) (fs : List FarmRow) (k : Option Rat × Option Rat),
        (rs.any (fun r => decide (retailMergeKey r = k))
          || fs.any (fun f => decide (farmMergeKey f = k))) = true →
        (outerMerge rs fs).any (fun m => decide (mergedKey m = k)) = true) ∧
    (∀ (rs : List RetailRow) (fs : List FarmRow) (r : RetailRow), r ∈ rs →
        fs.all (fun f => !(decide (farmMergeKey f = retailMergeKey r))) = true →
        mergeLeft r ∈ outerMerge rs fs ∧
        retailColsOfMerged (mergeLeft r) = retailColsOfRow r ∧
        (mergeLeft r).region_id = none ∧ (mergeLeft r).commodity_farmgate_en = none ∧
        (mergeLeft r).price_farmgate = none ∧ (mergeLeft r).unit_farmgate = none ∧
        (mergeLeft r).unit2_farmgate = none ∧ (mergeLeft r).region_latitude = none ∧
        (mergeLeft r).region_longitude = none ∧ (mergeLeft r).region_name = none) ∧
    (∀ (rs : List RetailRow) (fs : List FarmRow) (f : FarmRow), f ∈ fs →
        rs.all (fun r => !(decide (retailMergeKey r = farmMergeKey f))) = true →
        mergeRight f ∈ outerMerge rs fs ∧
        farmColsOfMerged (mergeRight f) = farmColsOfRow f ∧
        (mergeRight f).market_id = none ∧ (mergeRight f).commodity_retail = none ∧
        (mergeRight f).price_retail = none ∧ (mergeRight f).unit_retail = none ∧
        (mergeRight f).unit2_retail = none ∧ (mergeRight f).latitude = none ∧
        (mergeRight f).longitude = none ∧ (mergeRight f).market = none ∧
        (mergeRight f).admin1 = none ∧ (mergeRight f).admin2 = none ∧
        (mergeRight f).category = none ∧ (mergeRight f).commodity_id = none ∧
        (mergeRight f).priceflag = none ∧ (mergeRight f).pricetype = none ∧
        (mergeRight f).currency = none ∧ (mergeRight f).usdprice = none) ∧
    (∀ (rs : List RetailRow) (fs : List FarmRow) (r : RetailRow), r ∈ rs →
        ∃ m, m ∈ outerMerge rs fs ∧ retailColsOfMerged m = retailColsOfRow r) ∧
    (∀ (rs : List RetailRow) (fs : List FarmRow) (f : FarmRow), f ∈ fs →
        ∃ m, m ∈ outerMerge rs fs ∧ farmColsOfMerged m = farmColsOfRow f) := by
  refine ⟨?_, ?_, ?_, ?_, ?_⟩
  · -- key coverage
    intro rs fs k h
    rw [Bool.or_eq_true] at h
    rcases h with hany | hany
    · obtain ⟨r, hr, hdec⟩ := List.any_eq_true.mp hany
      have hk : retailMergeKey r = k := of_decide_eq_true hdec
      by_cases hemp : (mergeMatches fs r).isEmpty = true
      · exact List.any_eq_true.mpr ⟨mergeLeft r, mergeLeft_mem hr hemp,
          decide_eq_true (by rw [mergedKey_mergeLeft, hk])⟩
      · have hne : mergeMatches fs r ≠ [] := fun hnil => hemp (by rw [hnil]; rfl)
        obtain ⟨f0, hf0⟩ := List.exists_mem_of_ne_nil _ hne
        obtain ⟨hf0fs, hf0dec⟩ := List.mem_filter.mp hf0
        exact List.any_eq_true.mpr ⟨mergeBoth r f0,
          mergeBoth_mem hr hf0fs (of_decide_eq_true hf0dec),
          decide_eq_true (by rw [mergedKey_mergeBoth, hk])⟩
    · obtain ⟨f, hf, hdec⟩ := List.any_eq_true.mp hany
      have hk : farmMergeKey f = k := of_decide_eq_true hdec
      by_cases hanyr : rs.any (fun r => decide (retailMergeKey r = farmMergeKey f)) = true
      · obtain ⟨r, hr, hrdec⟩ := List.any_eq_true.mp hanyr
        have hkey : retailMergeKey r = farmMergeKey f := of_decide_eq_true hrdec
        exact List.any_eq_true.mpr ⟨mergeBoth r f, mergeBoth_mem hr hf hkey.symm,
          decide_eq_true (by rw [mergedKey_mergeBoth, hkey, hk])⟩
      · have hall : rs.all (fun r => !(decide (retailMergeKey r = farmMergeKey f))) = true := by
          rw [List.all_eq_true]
          intro r hr
          cases hd : decide (retailMergeKey r = farmMergeKey f)
          · rfl
          · exact absurd (List.any_eq_true.mpr ⟨r, hr, hd⟩) hanyr
        exact List.any_eq_true.mpr ⟨mergeRight f, mergeRight_mem hf hall,
          decide_eq_true (by rw [mergedKey_mergeRight, hk])⟩
  · -- unmatched retail rows
    intro rs fs r hr hall
    have hemp : (mergeMatches fs r).isEmpty = true := by
      rw [mergeMatches, List.isEmpty_iff, List.filter_eq_nil_iff]
      intro f hf
      have := (List.all_eq_true.mp hall) f hf
      intro hd
      rw [hd] at this
      exact Bool.false_ne_true this
    exact ⟨mergeLeft_mem hr hemp, rfl, rfl, rfl, rfl, rfl, rfl, rfl, rfl, rfl⟩
  · -- unmatched farmgate rows
    intro rs fs f hf hall
    exact ⟨mergeRight_mem hf hall, rfl, rfl, rfl, rfl, rfl, rfl, rfl, rfl, rfl,
      rfl, rfl, rfl, rfl, rfl, rfl, rfl, rfl⟩
  · -- no retail row dropped
    intro rs fs r hr
    by_cases hemp : (mergeMatches fs r).isEmpty = true
    · exact ⟨mergeLeft r, mergeLeft_mem hr hemp, rfl⟩
    · have hne : mergeMatches fs r ≠ [] := fun hnil => hemp (by rw [hnil]; rfl)
      obtain ⟨f0, hf0⟩ := List.exists_mem_of_ne_nil _ hne
      obtain ⟨hf0fs, hf0dec⟩ := List.mem_filter.mp hf0
      exact ⟨mergeBoth r f0, mergeBoth_mem hr hf0fs (of_decide_eq_true hf0dec), rfl⟩
  · -- no farmgate row dropped
    intro rs fs f hf
    by_cases hanyr : rs.any (fun r => decide (retailMergeKey r = farmMergeKey f)) = true
    · obtain ⟨r, hr, hrdec⟩ := List.any_eq_true.mp hanyr
      have hkey : retailMergeKey r = farmMergeKey f := of_decide_eq_true hrdec
      refine ⟨mergeBoth r f, mergeBoth_mem hr hf hkey.symm, ?_⟩
      have hy : r.year = f.year := congrArg Prod.fst hkey
      have hm : r.month = f.month := congrArg Prod.snd hkey
      rw [farmColsOfMerged, farmColsOfRow]
      rw [show (mergeBoth r f).year = r.year from rfl,
          show (mergeBoth r f).month = r.month from rfl, hy, hm]
      rfl
    · have hall : rs.all (fun r => !(decide (retailMergeKey r = farmMergeKey f))) = true := by
        rw [List.all_eq_true]
        intro r hr
        cases hd : decide (retailMergeKey r = farmMergeKey f)
        · rfl
        · exact absurd (List.any_eq_true.mpr ⟨r, hr, hd⟩) hanyr
      exact ⟨mergeRight f, mergeRight_mem hf hall, rfl⟩

/-- A farmgate row matching `retailRowFull` on `(year, month)`. -/
def farmRowFull : FarmRow :=
  { region_id := some 2, year := some 2016, month := some 1,
    commodity_farmgate_en := some "Maize", price_farmgate := some 60,
    unit_farmgate := "KG", unit2_farmgate := "KG",
    region_latitude := some 14, region_longitude := some (-14),
    region_name := some "Dakar" }

/-- Witness for C3: the key `(2016, 1)`, present in both one-row frames,
appears in the merged frame. -/
theorem c3_outer_merge_total_witness :
    ([retailRowFull].any (fun r =>
        decide (retailMergeKey r = ((some 2016 : Option Rat), (some 1 : Option Rat))))
      || [farmRowFull].any (fun f =>
        decide (farmMergeKey f = ((some 2016 : Option Rat), (some 1 : Option Rat))))) = true ∧
    (outerMerge [retailRowFull] [farmRowFull]).any (fun m =>
        decide (mergedKey m = ((some 2016 : Option Rat), (some 1 : Option Rat)))) = true :=
  ⟨by decide, c3_outer_merge_total.1 [retailRowFull] [farmRowFull]
    (some 2016, some 1) (by decide)⟩

/-! ### Loader column schemas (`load_data`, `load_commodity_data`) -/

/-- The `required_columns` list of `load_data` in `dashboard/app.py`. -/
def required_columns_app : List String :=
  ["Year", "Month", "Commodity", "Régions Name", "Régions - RegionId",
   "Régions - Latitude", "Régions - Longitude", "Price", "Unit"]

/-- The `required_columns` list of `load_commodity_data` in
`dashboard/Sen_agricost.py` (identical to `app.py`'s). -/
def required_columns_sen : List String :=
  ["Year", "Month", "Commodity", "Régions Name", "Régions - RegionId",
   "Régions - Latitude", "Régions - Longitude", "Price", "Unit"]

/-- The `required_columns` list of `load_commodity_data` in
`dashboard/Agrifood Cost and Margin Estimation v2.py`. -/
def required_columns_v2 : List String :=
  ["date", "admin1", "admin2", "market", "market_id", "latitude", "longitude",
   "category", "commodity_retail", "commodity_id", "unit_retail", "priceflag",
   "pricetype", "currency", "price_retail", "usdprice", "unit2_retail",
   "year", "month", "commodity_farmgate_en", "region_name", "region_id",
   "region_latitude", "region_longitude", "price_farmgate", "unit_farmgate",
   "unit2_farmgate"]

/-- The `retail_cols` projection list of v2 `load_commodity_data`, in the
column order of the grouped frame after `reset_index`. -/
def retail_columns_v2 : List String :=
  ["market_id", "year", "month", "commodity_retail", "price_retail",
   "unit_retail", "unit2_retail", "latitude", "longitude", "market",
   "admin1", "admin2", "category", "commodity_id", "priceflag",
   "pricetype", "currency", "usdprice"]

/-- The `farmgate_cols` projection list of v2 `load_commodity_data`. -/
def farmgate_columns_v2 : List String :=
  ["region_id", "year", "month", "commodity_farmgate_en", "price_farmgate",
   "unit_farmgate", "unit2_farmgate", "region_latitude", "region_longitude",
   "region_name"]

/-- The columns of the frame v2 `load_commodity_data` returns: the outer
merge of the two projections on `(year, month)` (no non-key column name is
shared, so no suffix is ever applied and the rename block is a no-op). -/
def merged_columns_v2 : List String :=
  retail_columns_v2
    ++ farmgate_columns_v2.filter (fun c => !(c == "year" || c == "month"))

/-- Schema level `load_data` of `dashboard/app.py`: a failed read (any
exception) yields `None`; a frame missing a required column yields `None`;
otherwise the frame is returned with its columns unchanged. -/
def load_data_app (input : Except String (List String)) : Option (List String) :=
  match input with
  | .error _ => none
  | .ok cols =>
      if required_columns_app.all (fun c => cols.contains c) then some cols else none

/-- Schema level `load_commodity_data` of `dashboard/Sen_agricost.py`: same
shape as `app.py`'s loader. -/
def load_commodity_data_sen (input : Except String (List String)) : Option (List String) :=
  match input with
  | .error _ => none
  | .ok cols =>
      if required_columns_sen.all (fun c => cols.contains c) then some cols else none

/-- Schema level `load_commodity_data` of
`dashboard/Agrifood Cost and Margin Estimation v2.py`: a failed read or a
missing required column yields `None`; otherwise the returned frame is the
merged frame, whose columns are `merged_columns_v2` regardless of the extra
input columns. -/
def load_commodity_data_v2 (input : Except String (List String)) : Option (List String) :=
  match input with
  | .error _ => none
  | .ok cols =>
      if required_columns_v2.all (fun c => cols.contains c) then some merged_columns_v2
      else none

/-- C8 (counterexample): on a well-formed input holding exactly the required
columns, v2's `load_commodity_data` returns the merged frame, and that frame
does not contain the required column `date` — the merge drops it. -/
theorem c8_v2_returns_frame_without_date :
    load_commodity_data_v2 (Except.ok required_columns_v2) = some merged_columns_v2 ∧
    merged_columns_v2.contains "date" = false ∧
    required_columns_v2.contains "date" = true := by
  refine ⟨by decide, by decide, by decide⟩

/-- C8 (amended): the three loaders are total — every input, including any
read failure, yields `None` or a frame — and `app.py`'s `load_data` and
`Sen_agricost.py`'s `load_commodity_data` return frames containing every
required column, while v2's `load_commodity_data` returns the merged frame,
which contains every required column except `date`. -/
theorem c8_loaders_total_schema :
    (∀ input : Except String (List String),
        load_data_app input = none ∨
        ∃ cols, load_data_app input = some cols ∧
          required_columns_app.all (fun c => cols.contains c) = true) ∧
    (∀ input : Except String (List String),
        load_commodity_data_sen input = none ∨
        ∃ cols, load_commodity_data_sen input = some cols ∧
          required_columns_sen.all (fun c => cols.contains c) = true) ∧
    (∀ input : Except String (List String),
        load_commodity_data_v2 input = none ∨
        ∃ cols, load_commodity_data_v2 input = some cols ∧
          (required_columns_v2.filter (fun c => !(c == "date"))).all
            (fun c => cols.contains c) = true ∧
          cols.contains "date" = false) := by
  refine ⟨?_, ?_, ?_⟩
  · intro input
    match input with
    | .error e => exact Or.inl rfl
    | .ok cols =>
        by_cases h : required_columns_app.all (fun c => cols.contains c) = true
        · exact Or.inr ⟨cols, by rw [load_data_app, if_pos h], h⟩
        · exact Or.inl (by rw [load_data_app, if_neg h])
  · intro input
    match input with
    | .error e => exact Or.inl rfl
    | .ok cols =>
        by_cases h : required_columns_sen.all (fun c => cols.contains c) = true
        · exact Or.inr ⟨cols, by rw [load_commodity_data_sen, if_pos h], h⟩
        · exact Or.inl (by rw [load_commodity_data_sen, if_neg h])
  · intro input
    match input with
    | .error e => exact Or.inl rfl
    | .ok cols =>
        by_cases h : required_columns_v2.all (fun c => cols.contains c) = true
        · exact Or.inr ⟨merged_columns_v2,
            by rw [load_commodity_data_v2, if_pos h], by decide, by decide⟩
        · exact Or.inl (by rw [load_commodity_data_v2, if_neg h])

/-- Witness for C8: the amended theorem applied at a failing read. -/
theorem c8_loaders_total_schema_witness :
    load_data_app (Except.error "read failure") = none ∨
    ∃ cols, load_data_app (Except.error "read failure") = some cols ∧
      required_columns_app.all (fun c => cols.contains c) = true :=
  c8_loaders_total_schema.1 (Except.error "read failure")

/-! ### The `main` pipelines (C7) -/

/-- The observable steps of a dashboard `main`: data load, geospatial load,
raster image generation, aggregation (the groupby inside `generate_map`),
and map rendering (`folium_static`). -/
inductive Step where
  | load : Step
  | loadGeo : Step
  | raster : Step
  | aggregate : Step
  | render : Step
deriving DecidableEq, Repr

/-- A row of the `commodity_prices_merged.xlsx` frame of `dashboard/app.py`. -/
structure AppRow where
  year : Option Rat
  month : Option Rat
  commodity : Option String
  region_name : Option String
  region_id : Option Rat
  region_latitude : Option Rat
  region_longitude : Option Rat
  price : Option Rat
  unit : String
deriving DecidableEq, Repr

/-- `sorted(df['Year'].dropna().unique())` is nonempty. -/
def validYears (df : List AppRow) : Bool := df.any (fun r => r.year.isSome)

/-- `sorted(df['Month'].dropna().unique())` is nonempty. -/
def validMonths (df : List AppRow) : Bool := df.any (fun r => r.month.isSome)

/-- The filter `df[(df['Year'] == year) & (df['Month'] == month)]` of
`generate_map` in `app.py` (NaN compares unequal to any selection). -/
def appFiltered (df : List AppRow) (y m : Rat) : List AppRow :=
  df.filter (fun r => decide (r.year = some y) && decide (r.month = some m))

/-- The step trace of `main` in `dashboard/app.py`: `load_data` runs first;
on `None` the function returns at once; otherwise, if no valid year or month
exists, it returns before `generate_map`; otherwise `generate_map` runs,
which aggregates and yields a map only when the filtered frame is nonempty,
and `folium_static` renders only that map. -/
def mainTrace_app : Option (List AppRow) → Rat → Rat → List Step
  | none, _, _ => [Step.load]
  | some df, y, m =>
      Step.load ::
        (if validYears df && validMonths df then
          (if (appFiltered df y m).isEmpty then [] else [Step.aggregate, Step.render])
        else [])

/-- `sorted(df['year'].dropna().unique())` of the merged v2 frame is
nonempty. -/
def validYearsV2 (df : List MergedRow) : Bool := df.any (fun r => r.year.isSome)

/-- `sorted(df['month'].dropna().unique())` of the merged v2 frame is
nonempty. -/
def validMonthsV2 (df : List MergedRow) : Bool := df.any (fun r => r.month.isSome)

/-- `(df['commodity_retail'].isin(sel)) | (df['commodity_farmgate_en'].isin(sel))`. -/
def commoditySelected (r : MergedRow) (sel : List String) : Bool :=
  (match r.commodity_retail with
   | some c => sel.contains c
   | none => false) ||
  (match r.commodity_farmgate_en with
   | some c => sel.contains c
   | none => false)

/-- The filter of `generate_map` in v2: year, month and selected
commodities. -/
def v2Filtered (df : List MergedRow) (y m : Rat) (sel : List String) : List MergedRow :=
  df.filter (fun r =>
    decide (r.year = some y) && decide (r.month = some m) && commoditySelected r sel)

/-- The step trace of `main` in
`dashboard/Agrifood Cost and Margin Estimation v2.py`: `load_commodity_data`
runs first; on `None` the function returns at once; otherwise the geospatial
load and `generate_raster_images` always run, then `main` returns before
`generate_map` when no valid year or month exists; otherwise `generate_map`
runs — it aggregates only when the filtered frame is nonempty, but always
returns a map, which `folium_static` renders. -/
def mainTrace_v2 : Option (List MergedRow) → Rat → Rat → List String → List Step
  | none, _, _, _ => [Step.load]
  | some df, y, m, sel =>
      Step.load :: Step.loadGeo :: Step.raster ::
        (if validYearsV2 df && validMonthsV2 df then
          (if (v2Filtered df y m sel).isEmpty then [Step.render]
           else [Step.aggregate, Step.render])
        else [])

/-- An `app.py` row with a NaN `Year` (so the frame has no valid year). -/
def appRowNoYear : AppRow :=
  { year := none, month := some 1, commodity := some "Maize",
    region_name := some "Dakar", region_id := some 1,
    region_latitude := some 14, region_longitude := some (-14),
    price := some 100, unit := "KG" }

/-- C7 (counterexample): `load_data` succeeds on a frame whose only row has
a NaN `Year`, yet `main` returns before `generate_map`: neither the
aggregation nor the rendering is performed, contradicting the claim that
after a successful load the steps execute once each. -/
theorem c7_aggregate_skipped_despite_load :
    mainTrace_app (some [appRowNoYear]) 2016 1 = [Step.load] ∧
    ¬ Step.aggregate ∈ mainTrace_app (some [appRowNoYear]) 2016 1 ∧
    ¬ Step.render ∈ mainTrace_app (some [appRowNoYear]) 2016 1 :=
  ⟨rfl, by decide, by decide⟩

/-- C7 (amended): in both `main`s the load step runs first, and a `None`
load result makes `main` return at once, with no aggregation, no raster
image generation and no rendering; otherwise each step executes at most
once, in the order load (then, in v2, geospatial load and raster
generation), aggregate, render; the full sequence executes exactly when the
loaded frame has a valid year and month and the filtered selection is
nonempty. -/
theorem c7_pipeline_order :
    (∀ (ld : Option (List AppRow)) (y m : Rat),
        (mainTrace_app ld y m).head? = some Step.load) ∧
    (∀ (ld : Option (List MergedRow)) (y m : Rat) (sel : List String),
        (mainTrace_v2 ld y m sel).head? = some Step.load) ∧
    (∀ (y m : Rat), mainTrace_app none y m = [Step.load]) ∧
    (∀ (y m : Rat) (sel : List String), mainTrace_v2 none y m sel = [Step.load]) ∧
    (∀ (ld : Option (List AppRow)) (y m : Rat),
        List.Sublist (mainTrace_app ld y m) [Step.load, Step.aggregate, Step.render]) ∧
    (∀ (ld : Option (List MergedRow)) (y m : Rat) (sel : List String),
        List.Sublist (mainTrace_v2 ld y m sel)
          [Step.load, Step.loadGeo, Step.raster, Step.aggregate, Step.render]) ∧
    (∀ (df : List AppRow) (y m : Rat),
        (validYears df && validMonths df) = true →
        (appFiltered df y m).isEmpty = false →
        mainTrace_app (some df) y m = [Step.load, Step.aggregate, Step.render]) ∧
    (∀ (df : List MergedRow) (y m : Rat) (sel : List String),
        (validYearsV2 df && validMonthsV2 df) = true →
        (v2Filtered df y m sel).isEmpty = false →
        mainTrace_v2 (some df) y m sel =
          [Step.load, Step.loadGeo, Step.raster, Step.aggregate, Step.render]) := by
  refine ⟨?_, ?_, ?_, ?_, ?_, ?_, ?_, ?_⟩
  · intro ld y m
    cases ld <;> rfl
  · intro ld y m sel
    cases ld <;> rfl
  · intro y m
    rfl
  · intro y m sel
    rfl
  · intro ld y m
    cases ld with
    | none =>
        show List.Sublist [Step.load] [Step.load, Step.aggregate, Step.render]
        decide
    | some df =>
        rw [mainTrace_app]
        by_cases h1 : (validYears df && validMonths df) = true
        · rw [if_pos h1]
          by_cases h2 : (appFiltered df y m).isEmpty = true
          · rw [if_pos h2]; decide
          · rw [if_neg h2]
        · rw [if_neg h1]; decide
  · intro ld y m sel
    cases ld with
    | none =>
        show List.Sublist [Step.load]
          [Step.load, Step.loadGeo, Step.raster, Step.aggregate, Step.render]
        decide
    | some df =>
        rw [mainTrace_v2]
        by_cases h1 : (validYearsV2 df && validMonthsV2 df) = true
        · rw [if_pos h1]
          by_cases h2 : (v2Filtered df y m sel).isEmpty = true
          · rw [if_pos h2]; decide
          · rw [if_neg h2]
        · rw [if_neg h1]; decide
  · intro df y m h1 h2
    rw [mainTrace_app, if_pos h1, if_neg (by simp [h2])]
  · intro df y m sel h1 h2
    rw [mainTrace_v2, if_pos h1, if_neg (by simp [h2])]

/-- An `app.py` row with valid year and month. -/
def appRowFull : AppRow :=
  { year := some 2016, month := some 1, commodity := some "Maize",
    region_name := some "Dakar", region_id := some 1,
    region_latitude := some 14, region_longitude := some (-14),
    price := some 100, unit := "KG" }

/-- Witness for C7: on a one-row frame with valid year and month and a
matching selection, the full pipeline executes in order. -/
theorem c7_pipeline_order_witness :
    (validYears [appRowFull] && validMonths [appRowFull]) = true ∧
    (appFiltered [appRowFull] 2016 1).isEmpty = false ∧
    mainTrace_app (some [appRowFull]) 2016 1 = [Step.load, Step.aggregate, Step.render] :=
  ⟨by decide, by decide,
   c7_pipeline_order.2.2.2.2.2.2.1 [appRowFull] 2016 1 (by decide) (by decide)⟩

/-! ### NLP price extraction (`extract_price_data`, C4) -/

/-- Python `\w` on the ASCII fragment: letters, digits, underscore. -/
def isWordChar (c : Char) : Bool := c.isAlphanum || c == '_'

/-- Python `\s` on the ASCII fragment: whitespace characters. -/
def isSpaceChar (c : Char) : Bool :=
  c == ' ' || c == '\t' || c == '\n' || c == '\r' || c == '\x0b' || c == '\x0c'

/-- The class `[A-Za-z]`. -/
def isAsciiLetter (c : Char) : Bool := c.isAlpha

/-- The class `\d`. -/
def isDigitChar (c : Char) : Bool := c.isDigit

/-- `.` without DOTALL: any character but a newline. -/
def isDotChar (c : Char) : Bool := !(c == '\n')

/-- One item of the (linear) regex pattern: a case-insensitive literal, a
greedy `+` over a character class, optionally capturing a group, or a lazy
`*` over a character class. -/
inductive REItem where
  | lit : List Char → REItem
  | plusGreedy : (Char → Bool) → Option Nat → REItem
  | starLazy : (Char → Bool) → REItem

/-- The length of the maximal prefix of `s` whose characters satisfy `p`:
the candidate consumption lengths of `p+` and `p*?` at this position. -/
def runLen (p : Char → Bool) : List Char → Nat
  | [] => 0
  | c :: cs => if p c then runLen p cs + 1 else 0

/-- Case-insensitive literal prefix test (`re.IGNORECASE`). -/
def prefixCI : List Char → List Char → Bool
  | [], _ => true
  | _ :: _, [] => false
  | a :: as, b :: bs => (a.toLower == b.toLower) && prefixCI as bs

/-- Record a captured group, when the item captures one. -/
def pushCap (caps : List (Nat × List Char)) : Option Nat → List Char →
    List (Nat × List Char)
  | none, _ => caps
  | some g, cs => caps ++ [(g, cs)]

/-- Backtracking matcher for a linear pattern, in Python `re`'s
disambiguation order: a greedy `p+` tries the longest candidate first, a
lazy `p*?` the shortest, and the first full match of the remaining items
wins.  The pattern end is unanchored (trailing input is ignored). -/
def matchItems : List REItem → List Char → List (Nat × List Char) →
    Option (List (Nat × List Char))
  | [], _, caps => some caps
  | .lit l :: rest, s, caps =>
      if prefixCI l s then matchItems rest (s.drop l.length) caps else none
  | .plusGreedy p g :: rest, s, caps =>
      (List.range (runLen p s)).findSome? (fun d =>
        matchItems rest (s.drop (runLen p s - d))
          (pushCap caps g (s.take (runLen p s - d))))
  | .starLazy p :: rest, s, caps =>
      (List.range (runLen p s + 1)).findSome? (fun k =>
        matchItems rest (s.drop k) caps)

/-- The pattern `(\w+)\s+price.*?([A-Za-z]+)\s+is\s+KSh\s+(\d+)` of
`extract_price_data`, as a linear item sequence with capture groups 1-3. -/
def priceRE : List REItem :=
  [.plusGreedy isWordChar (some 1),
   .plusGreedy isSpaceChar none,
   .lit ['p', 'r', 'i', 'c', 'e'],
   .starLazy isDotChar,
   .plusGreedy isAsciiLetter (some 2),
   .plusGreedy isSpaceChar none,
   .lit ['i', 's'],
   .plusGreedy isSpaceChar none,
   .lit ['K', 'S', 'h'],
   .plusGreedy isSpaceChar none,
   .plusGreedy isDigitChar (some 3)]

/-- `re.search`: try each start position from the left; the leftmost
position admitting a match wins. -/
def reSearch (s : List Char) : Option (List (Nat × List Char)) :=
  (List.range (s.length + 1)).findSome? (fun i => matchItems priceRE (s.drop i) [])

/-- Look up a captured group. -/
def getCap (caps : List (Nat × List Char)) (g : Nat) : List Char :=
  match caps.find? (fun e => e.1 == g) with
  | some e => e.2
  | none => []

/-- Python `str.lower` on the ASCII fragment. -/
def lowerChars (cs : List Char) : List Char := cs.map Char.toLower

/-- The numeric value of a digit string (`float` of a `\d+` capture is this
integer exactly). -/
def natOfDigits (cs : List Char) : Nat :=
  cs.foldl (fun acc c => acc * 10 + (c.toNat - 48)) 0

/-- One extracted row: `{'commodity': ..., 'location': ..., 'price': ...}`. -/
structure PriceRow where
  commodity : String
  location : String
  price : Rat
deriving DecidableEq, Repr

/-- The row extracted from one sentence, when the regex matches it:
commodity is capture 1 lower-cased, location capture 2, price the numeric
value of capture 3. -/
def rowOfSent (sent : String) : Option PriceRow :=
  match reSearch sent.data with
  | none => none
  | some caps => some
      { commodity := String.mk (lowerChars (getCap caps 1))
        location := String.mk (getCap caps 2)
        price := (natOfDigits (getCap caps 3) : Rat) }

/-- `extract_price_data` of `scripts/agrifood_pipeline.py`.  The spaCy
sentence segmentation (`doc.sents`) is treated as given: the function takes
the sentences of the text and applies `re.search` with the price pattern to
each, appending one row per matching sentence, in sentence order. -/
def extract_price_data (sents : List String) : List PriceRow :=
  sents.filterMap rowOfSent

/-- Declarative matching: `MatchesL items s` holds when the item sequence
matches some prefix decomposition of `s` (the tail is unconstrained, like
the unanchored right end of `re.search`). -/
inductive MatchesL : List REItem → List Char → Prop where
  | nil (s : List Char) : MatchesL [] s
  | lit {l : List Char} {rest : List REItem} {s : List Char} :
      prefixCI l s = true → MatchesL rest (s.drop l.length) →
      MatchesL (.lit l :: rest) s
  | plus {p : Char → Bool} {g : Option Nat} {rest : List REItem} {s : List Char}
      (k : Nat) : 1 ≤ k → k ≤ runLen p s → MatchesL rest (s.drop k) →
      MatchesL (.plusGreedy p g :: rest) s
  | star {p : Char → Bool} {rest : List REItem} {s : List Char}
      (k : Nat) : k ≤ runLen p s → MatchesL rest (s.drop k) →
      MatchesL (.starLazy p :: rest) s

/-- A well-formed capture entry for a pattern: it comes from a capturing
greedy plus of the pattern, is nonempty, and all its characters satisfy
that item's class. -/
def GoodCap (items : List REItem) (e : Nat × List Char) : Prop :=
  ∃ p, REItem.plusGreedy p (some e.1) ∈ items ∧ e.2 ≠ [] ∧ e.2.all p = true

lemma runLen_le_length (p : Char → Bool) : ∀ s : List Char, runLen p s ≤ s.length
  | [] => Nat.le_refl 0
  | c :: cs => by
      rw [runLen]
      by_cases h : p c = true
      · rw [if_pos h]
        simpa using Nat.succ_le_succ (runLen_le_length p cs)
      · rw [if_neg h]
        exact Nat.zero_le _

lemma take_all_of_le_runLen (p : Char → Bool) :
    ∀ (s : List Char) (k : Nat), k ≤ runLen p s → (s.take k).all p = true
  | _, 0, _ => by simp
  | [], k + 1, h => by
      rw [runLen] at h
      exact absurd h (by omega)
  | c :: cs, k + 1, h => by
      rw [runLen] at h
      by_cases hc : p c = true
      · rw [if_pos hc] at h
        rw [List.take_succ_cons, List.all_cons, hc,
          take_all_of_le_runLen p cs k (by omega)]
        rfl
      · rw [if_neg hc] at h
        exact absurd h (by omega)

lemma matchItems_isSome_iff :
    ∀ (items : List REItem) (s : List Char) (caps : List (Nat × List Char)),
      (matchItems items s caps).isSome = true ↔ MatchesL items s
  | [], s, caps => by
      rw [matchItems]
      exact ⟨fun _ => MatchesL.nil s, fun _ => rfl⟩
  | .lit l :: rest, s, caps => by
      rw [matchItems]
      by_cases h : prefixCI l s = true
      · rw [if_pos h, matchItems_isSome_iff rest (s.drop l.length) caps]
        constructor
        · intro hm
          exact MatchesL.lit h hm
        · intro hm
          cases hm with
          | lit h1 h2 => exact h2
      · rw [if_neg h]
        constructor
        · intro hfalse
          exact absurd hfalse (by simp)
        · intro hm
          cases hm with
          | lit h1 h2 => exact absurd h1 h
  | .plusGreedy p g :: rest, s, caps => by
      rw [matchItems, List.findSome?_isSome_iff]
      constructor
      · rintro ⟨d, hd, hsome⟩
        rw [List.mem_range] at hd
        rw [matchItems_isSome_iff rest _ _] at hsome
        exact MatchesL.plus (runLen p s - d) (by omega) (by omega) hsome
      · intro hm
        cases hm with
        | plus k hk1 hk2 hrest =>
            refine ⟨runLen p s - k, ?_, ?_⟩
            · rw [List.mem_range]
              omega
            · have hkk : runLen p s - (runLen p s - k) = k := by omega
              rw [hkk, matchItems_isSome_iff rest _ _]
              exact hrest
  | .starLazy p :: rest, s, caps => by
      rw [matchItems, List.findSome?_isSome_iff]
      constructor
      · rintro ⟨k, hk, hsome⟩
        rw [List.mem_range] at hk
        rw [matchItems_isSome_iff rest _ _] at hsome
        exact MatchesL.star k (by omega) hsome
      · intro hm
        cases hm with
        | star k hk hrest =>
            refine ⟨k, ?_, ?_⟩
            · rw [List.mem_range]
              omega
            · rw [matchItems_isSome_iff rest _ _]
              exact hrest

lemma matchItems_caps :
    ∀ (items : List REItem) (s : List Char) (caps caps' : List (Nat × List Char)),
      matchItems items s caps = some caps' →
      ∃ tail, caps' = caps ++ tail ∧ ∀ e ∈ tail, GoodCap items e
  | [], s, caps, caps', h => by
      rw [matchItems] at h
      refine ⟨[], ?_, by simp⟩
      rw [List.append_nil]
      exact (Option.some.inj h).symm
  | .lit l :: rest, s, caps, caps', h => by
      rw [matchItems] at h
      by_cases hp : prefixCI l s = true
      · rw [if_pos hp] at h
        obtain ⟨tail, he, hg⟩ := matchItems_caps rest _ caps caps' h
        refine ⟨tail, he, fun e hel => ?_⟩
        obtain ⟨q, hmem, hne, hall⟩ := hg e hel
        exact ⟨q, List.mem_cons_of_mem _ hmem, hne, hall⟩
      · rw [if_neg hp] at h
        cases h
  | .plusGreedy p g :: rest, s, caps, caps', h => by
      rw [matchItems] at h
      obtain ⟨d, hd, hsome⟩ := List.exists_of_findSome?_eq_some h
      rw [List.mem_range] at hd
      obtain ⟨tail, he, hg⟩ := matchItems_caps rest _ _ caps' hsome
      cases g with
      | none =>
          rw [pushCap] at he
          refine ⟨tail, he, fun e hel => ?_⟩
          obtain ⟨q, hmem, hne, hall⟩ := hg e hel
          exact ⟨q, List.mem_cons_of_mem _ hmem, hne, hall⟩
      | some gid =>
          rw [pushCap] at he
          rw [List.append_assoc, List.singleton_append] at he
          refine ⟨(gid, s.take (runLen p s - d)) :: tail, he, ?_⟩
          intro e hel
          rcases List.mem_cons.mp hel with rfl | hel
          · refine ⟨p, List.mem_cons_self _ _, ?_, ?_⟩
            · have h2 : runLen p s ≤ s.length := runLen_le_length p s
              intro hnil
              have hlen := congrArg List.length hnil
              rw [List.length_take] at hlen
              simp only [List.length_nil, Nat.min_eq_zero_iff] at hlen
              omega
            · exact take_all_of_le_runLen p s _ (by omega)
          · obtain ⟨q, hmem, hne, hall⟩ := hg e hel
            exact ⟨q, List.mem_cons_of_mem _ hmem, hne, hall⟩
  | .starLazy p :: rest, s, caps, caps', h => by
      rw [matchItems] at h
      obtain ⟨k, hk, hsome⟩ := List.exists_of_findSome?_eq_some h
      obtain ⟨tail, he, hg⟩ := matchItems_caps rest _ caps caps' hsome
      refine ⟨tail, he, fun e hel => ?_⟩
      obtain ⟨q, hmem, hne, hall⟩ := hg e hel
      exact ⟨q, List.mem_cons_of_mem _ hmem, hne, hall⟩

lemma reSearch_isSome_iff (s : List Char) :
    (reSearch s).isSome = true ↔ ∃ i, i ≤ s.length ∧ MatchesL priceRE (s.drop i) := by
  rw [reSearch, List.findSome?_isSome_iff]
  constructor
  · rintro ⟨i, hi, hsome⟩
    rw [List.mem_range] at hi
    rw [matchItems_isSome_iff] at hsome
    exact ⟨i, by omega, hsome⟩
  · rintro ⟨i, hi, hm⟩
    refine ⟨i, ?_, ?_⟩
    · rw [List.mem_range]
      omega
    · rw [matchItems_isSome_iff]
      exact hm

lemma reSearch_caps {s : List Char} {caps : List (Nat × List Char)}
    (h : reSearch s = some caps) : ∀ e ∈ caps, GoodCap priceRE e := by
  rw [reSearch] at h
  obtain ⟨i, hi, hsome⟩ := List.exists_of_findSome?_eq_some h
  obtain ⟨tail, he, hg⟩ := matchItems_caps priceRE _ [] caps hsome
  rw [List.nil_append] at he
  subst he
  exact hg

lemma goodCap_class {e : Nat × List Char} (h : GoodCap priceRE e) :
    (e.1 = 1 → e.2 ≠ [] ∧ e.2.all isWordChar = true) ∧
    (e.1 = 2 → e.2 ≠ [] ∧ e.2.all isAsciiLetter = true) ∧
    (e.1 = 3 → e.2 ≠ [] ∧ e.2.all isDigitChar = true) := by
  obtain ⟨p, hmem, hne, hall⟩ := h
  simp only [priceRE, List.mem_cons, List.not_mem_nil, or_false] at hmem
  refine ⟨?_, ?_, ?_⟩
  all_goals intro hg
  all_goals rw [hg] at hmem
  all_goals rcases hmem with h|h|h|h|h|h|h|h|h|h|h <;>
    first
      | exact REItem.noConfusion h
      | (injection h with h1 h2
         first
          | exact Option.noConfusion h2
          | (injection h2 with h3
             first
              | exact absurd h3 (by decide)
              | (subst h1; exact ⟨hne, hall⟩)))

lemma rowOfSent_isSome (s : String) :
    (rowOfSent s).isSome = (reSearch s.data).isSome := by
  cases h : reSearch s.data with
  | none => simp [rowOfSent, h]
  | some caps => simp [rowOfSent, h]

lemma length_filterMap_eq (f : α → Option β) (l : List α) :
    (l.filterMap f).length = (l.filter (fun a => (f a).isSome)).length := by
  induction l with
  | nil => rfl
  | cons a t ih =>
      cases hfa : f a with
      | none => simp [List.filterMap_cons, List.filter_cons, hfa, ih]
      | some b => simp [List.filterMap_cons, List.filter_cons, hfa, ih]

/-- C4: `extract_price_data` maps the spaCy sentences through `re.search`:
it emits exactly one row per matching sentence, in sentence order (it is the
`filterMap` of `rowOfSent`, its length counts the matching sentences, and it
distributes over concatenation); a sentence matches precisely when some
suffix of it matches the declarative reading of the pattern
`(\w+)\s+price.*?([A-Za-z]+)\s+is\s+KSh\s+(\d+)`; on a match the row's
commodity is the first capture lower-cased, the location the second capture,
the price the numeric value of the third, and each capture is a nonempty
string of its class (`\w`, `[A-Za-z]`, `\d`); non-matching sentences
contribute no row and no sentences yield the empty frame. -/
theorem c4_extract_price_regex :
    (∀ sents : List String, extract_price_data sents = sents.filterMap rowOfSent) ∧
    (∀ sents : List String, (extract_price_data sents).length
        = (sents.filter (fun s => (reSearch s.data).isSome)).length) ∧
    (∀ s1 s2 : List String,
        extract_price_data (s1 ++ s2) = extract_price_data s1 ++ extract_price_data s2) ∧
    (∀ s : String, (reSearch s.data).isSome = true ↔
        ∃ i, i ≤ s.data.length ∧ MatchesL priceRE (s.data.drop i)) ∧
    (∀ (s : String) (caps : List (Nat × List Char)), reSearch s.data = some caps →
        rowOfSent s = some
          { commodity := String.mk (lowerChars (getCap caps 1)),
            location := String.mk (getCap caps 2),
            price := (natOfDigits (getCap caps 3) : Rat) } ∧
        ∀ e ∈ caps,
          (e.1 = 1 → e.2 ≠ [] ∧ e.2.all isWordChar = true) ∧
          (e.1 = 2 → e.2 ≠ [] ∧ e.2.all isAsciiLetter = true) ∧
          (e.1 = 3 → e.2 ≠ [] ∧ e.2.all isDigitChar = true)) ∧
    (∀ s : String, reSearch s.data = none → rowOfSent s = none) ∧
    extract_price_data [] = [] := by
  refine ⟨fun _ => rfl, ?_, ?_, fun s => reSearch_isSome_iff s.data, ?_, ?_, rfl⟩
  · intro sents
    rw [extract_price_data, length_filterMap_eq,
      List.filter_congr (fun s _ => rowOfSent_isSome s)]
  · intro s1 s2
    rw [extract_price_data, extract_price_data, extract_price_data,
      List.filterMap_append]
  · intro s caps h
    constructor
    · simp only [rowOfSent, h]
    · intro e he
      exact goodCap_class (reSearch_caps h e he)
  · intro s h
    simp only [rowOfSent, h]

/-- Witness for C4: on the sample sentence of `agrifood_pipeline.py`, the
search captures `maize`, `Kisumu`, `63`, and the extracted row has those
values. -/
theorem c4_extract_price_regex_witness :
    reSearch ("Retail maize price in Kisumu is KSh 63 per kg.").data =
      some [(1, "maize".data), (2, "Kisumu".data), (3, "63".data)] ∧
    rowOfSent "Retail maize price in Kisumu is KSh 63 per kg." = some
      { commodity := String.mk (lowerChars
          (getCap [(1, "maize".data), (2, "Kisumu".data), (3, "63".data)] 1)),
        location := String.mk
          (getCap [(1, "maize".data), (2, "Kisumu".data), (3, "63".data)] 2),
        price := (natOfDigits
          (getCap [(1, "maize".data), (2, "Kisumu".data), (3, "63".data)] 3) : Rat) } :=
  have h : reSearch ("Retail maize price in Kisumu is KSh 63 per kg.").data =
      some [(1, "maize".data), (2, "Kisumu".data), (3, "63".data)] := by decide
  ⟨h, (c4_extract_price_regex.2.2.2.2.1 "Retail maize price in Kisumu is KSh 63 per kg."
    [(1, "maize".data), (2, "Kisumu".data), (3, "63".data)] h).1⟩
